import Mathlib

/-!
Verification development for the task-graph import/export core of Ctrl-Q.

The definitions below are shallow embeddings of the JavaScript source files
`src/lib/cmd/qseow/importtask.js`, `src/lib/cmd/qseow/gettask.js` and
`src/lib/cmd/qseow/vistask.js`.  Spreadsheet/CSV cells are modelled by the
`Cell` type, JavaScript numbers that arise in this code base are integral and
are modelled by `Int`, and `parseInt` / `Number` coercions are modelled by
`Option Int` where `none` plays the role of `NaN`.

A few helpers the code calls live in repository files that are not part of
the source snapshot (`globals.js`, `lib/util/qseow/lookups.js`, the
`QlikSenseTasks` / `QlikSenseApps` classes).  Wherever such a helper is
needed it is either taken as an explicit parameter or modelled from the
specification; every such definition carries a doc comment saying so.
-/

namespace CtrlQ

/-- A spreadsheet or CSV cell value as it appears in this code base after
parsing and type casting: a JavaScript string, an (integral) number, or a
boolean. -/
inductive Cell where
  | str (s : String)
  | int (n : Int)
  | bool (b : Bool)
deriving DecidableEq, Repr

/-- Numeric value of a list of decimal digit characters (base 10). -/
def decDigitsVal (cs : List Char) : Nat :=
  cs.foldl (fun a c => a * 10 + (c.toNat - 48)) 0

/-- Numeric value of the longest leading run of decimal digits of a character
list, or `none` when that run is empty. -/
def digitsPrefixVal (cs : List Char) : Option Nat :=
  let ds := cs.takeWhile (fun c => c.isDigit)
  if ds.isEmpty then none else some (decDigitsVal ds)

/-- Model of JavaScript `parseInt(s, 10)`: skip leading whitespace, read an
optional sign and then the longest run of decimal digits; `none` models the
`NaN` result when no digit is found. -/
def parseIntJs (s : String) : Option Int :=
  match s.data.dropWhile (fun c => c.isWhitespace) with
  | '-' :: rest => (digitsPrefixVal rest).map (fun n => -(n : Int))
  | '+' :: rest => (digitsPrefixVal rest).map (fun n => (n : Int))
  | cs => (digitsPrefixVal cs).map (fun n => (n : Int))

/-- Model of JavaScript `String.prototype.trim()`: remove whitespace from
both ends of the string. -/
def jsTrim (s : String) : String :=
  String.mk (((s.data.dropWhile Char.isWhitespace).reverse.dropWhile Char.isWhitespace).reverse)

/-- Model of JavaScript `Number(s)` restricted to the integral literals this
code base deals with: surrounding whitespace is trimmed, the empty string
converts to `0`, a signed run of decimal digits converts to its value, and
anything else is `NaN` (`none`). -/
def jsNumberOfString (s : String) : Option Int :=
  let t := jsTrim s
  if t = "" then some 0
  else
    match t.data with
    | '-' :: rest =>
      if !rest.isEmpty && rest.all Char.isDigit then some (-(decDigitsVal rest : Int)) else none
    | '+' :: rest =>
      if !rest.isEmpty && rest.all Char.isDigit then some ((decDigitsVal rest : Int)) else none
    | cs =>
      if !cs.isEmpty && cs.all Char.isDigit then some ((decDigitsVal cs : Int)) else none

/-- JavaScript numeric coercion of a cell value (`Number(x)`); `none` is
`NaN`. -/
def jsToNumber : Cell → Option Int
  | .int n => some n
  | .bool b => some (if b then 1 else 0)
  | .str s => jsNumberOfString s

/-- JavaScript `x <= n` for a cell read at a column position and an integral
number `n`.  A missing cell (`undefined`) or a `NaN` coercion compares
`false`. -/
def cellLe (c : Option Cell) (n : Int) : Bool :=
  match c with
  | none => false
  | some cv =>
    match jsToNumber cv with
    | none => false
    | some m => decide (m ≤ n)

/-- The guard `parseInt(options.limitImportCount, 10) > 0` used by
`processCsvFile` and `importTaskFromFile` (importtask.js lines 289 and 362)
to decide whether an import limit is active. -/
def limitActive (limitImportCount : String) : Bool :=
  match parseIntJs limitImportCount with
  | some n => decide (0 < n)
  | none => false

/-! ## The csv-parse record stream (importtask.js `getHeaders`) -/

/-- A line of a delimited-text source, already split into its fields.  An
empty physical line is represented by `[]`.  The model covers sources whose
quoted fields contain no embedded line breaks, so each physical source line
yields at most one record. -/
def isEmptyLine (l : List String) : Bool := l.isEmpty

/-- Model of the csv-parse stream with `skip_empty_lines: true` and
`info: true`, starting at physical line number `lineNo`: every non-empty
source line becomes one record paired with `info.lines`, its 1-based
physical line number; empty lines are skipped but still advance the line
counter. -/
def csvRecordsFrom (lineNo : Nat) : List (List String) → List (Nat × List String)
  | [] => []
  | l :: rest =>
    if isEmptyLine l then csvRecordsFrom (lineNo + 1) rest
    else (lineNo, l) :: csvRecordsFrom (lineNo + 1) rest

/-- The records of a whole source file; line numbering starts at 1. -/
def csvRecordsOfSource (src : List (List String)) : List (Nat × List String) :=
  csvRecordsFrom 1 src

/-- Model of getHeaders (importtask.js lines 13-32): iterate over the csv-parse
record stream and keep every record whose `info.lines` equals `1`. -/
def getHeadersModel (src : List (List String)) : List (List String) :=
  ((csvRecordsOfSource src).filter (fun p => p.1 == 1)).map (fun p => p.2)

/-- The reading of claim C6, written from the spec sentence it cites: the
header row is the first non-empty line of the file. -/
def firstNonEmptyLine (src : List (List String)) : Option (List String) :=
  src.find? (fun l => !(isEmptyLine l))

/-! ## The csv-parse cast callback (importtask.js `processCsvFile`) -/

/-- Result of the csv-parse `cast` callback on one data cell: either the
coerced cell value, or `abort`, which stands for `logger.error` followed by
`process.exit(1)`. -/
inductive CastResult where
  | ok (c : Cell)
  | abort
deriving DecidableEq, Repr

/-- Type coercion for the `0 / 1 / empty` boolean columns `Task enabled`,
`Partial reload`, `Manually triggered` and `Event enabled` (importtask.js
lines 70-85, 122-153 and 172-187; all four column branches are verbatim
copies of each other).  CSV cells are always strings, so the
`typeof value !== 'string'` disjunct of the source's guard is always
false. -/
def castBool01 (value : String) : CastResult :=
  if !(value == "0" || value == "1" || jsTrim value == "") then .abort
  else if value == "1" then .ok (.bool true)
  else if value == "0" || jsTrim value == "" then .ok (.bool false)
  else .ok (.str value)

/-- Type coercion for the `Task timeout` column (taskSessionTimeout in
importtask.js, lines 86-103): the value must be a string that is either
whitespace-only (returned as the empty-ish string) or numeric with
`parseInt(value, 10) > 0`.  The helper `isNumeric` lives in `globals.js`,
which is not part of the source snapshot, so it is taken as a parameter;
the theorems below hold for every choice of it. -/
def castTaskSessionTimeout (isNumeric : String → Bool) (value : String) : CastResult :=
  if (decide (0 < (jsTrim value).length) && !(isNumeric value))
      || !((match parseIntJs value with
            | some n => decide (0 < n)
            | none => false)
          || jsTrim value == "") then
    .abort
  else if jsTrim value == "" then .ok (.str "")
  else .ok (.int ((parseIntJs value).getD 0))

/-- A concrete stand-in for the `isNumeric` helper of `globals.js` (accepts
non-empty decimal digit strings); used only to instantiate parametric
theorems at a closed input. -/
def isNumericDigits (s : String) : Bool :=
  !s.isEmpty && s.data.all Char.isDigit

/-! ## The record-retention loop of `processCsvFile` and the Excel limit
    step of `importTaskFromFile` -/

/-- One record emitted by the csv-parse stream of `processCsvFile`: the
already-cast row together with `info.lines`, its 1-based physical source
line number. -/
structure CsvRecord where
  lines : Nat
  record : List Cell
deriving DecidableEq, Repr

/-- The record-retention loop of `processCsvFile` (importtask.js lines
284-297): the header record (`info.lines === 1`) is always kept; when
`parseInt(limitImportCount, 10) > 0` a data record is kept iff its cell at
the `Task counter` column position is `<=` the limit; otherwise every
record is kept.  The `Task counter` position comes from
`getTaskColumnPosFromHeaderRow` (lookups.js, not part of the source
snapshot) and is passed in as `taskCounterPos`. -/
def processCsvRetain (limitImportCount : String) (taskCounterPos : Nat)
    (recs : List CsvRecord) : List CsvRecord :=
  recs.filter fun r =>
    if r.lines == 1 then true
    else if limitActive limitImportCount then
      cellLe (r.record.get? taskCounterPos) ((parseIntJs limitImportCount).getD 0)
    else true

/-- The `Task counter` column name (spec §6 and the repository README fix
this name; it is also the name the exporter emits). -/
def taskCounterColName : String := "Task counter"

/-- The Excel import-limit step of `importTaskFromFile` (importtask.js lines
360-383): when `parseInt(limitImportCount, 10) > 0`, keep a sheet row iff
its cell at the `Task counter` position is (strictly) equal to the literal
column-name string — that is the header row — or is `<=` the limit;
with no active limit the sheet data is left untouched. -/
def excelLimitData (limitImportCount : String) (taskCounterPos : Nat)
    (data : List (List Cell)) : List (List Cell) :=
  if limitActive limitImportCount then
    data.filter fun row =>
      (row.get? taskCounterPos == some (Cell.str taskCounterColName))
        || cellLe (row.get? taskCounterPos) ((parseIntJs limitImportCount).getD 0)
  else data

/-! ## Row grouping (spec §4.4) -/

/-- Modelled from the spec (§4.4 row grouping): consecutive rows that share
the value of a grouping-key cell form one record group; the first row of a
group carries the group's top-level fields. -/
def groupRows (key : List Cell → Option Cell) : List (List Cell) → List (List (List Cell))
  | [] => []
  | r :: rs =>
    (r :: rs.takeWhile (fun r2 => key r2 == key r))
      :: groupRows key (rs.dropWhile (fun r2 => key r2 == key r))
termination_by l => l.length
decreasing_by
  simp only [List.length_cons]
  have h : ∀ (l : List (List Cell)),
      (l.dropWhile (fun r2 => key r2 == key r)).length ≤ l.length := by
    intro l
    induction l with
    | nil => simp [List.dropWhile]
    | cons a l ih =>
      rw [List.dropWhile_cons]
      split
      · exact Nat.le_succ_of_le ih
      · simp
  exact Nat.lt_succ_of_le (h rs)

/-! ## The Excel branch of `importTaskFromFile` and the phase ordering of
    app uploads versus task creation -/

/-- A parsed spreadsheet work sheet as returned by `xlsx.parse`: its name and
its rows (header row first). -/
structure Sheet where
  name : String
  data : List (List Cell)
deriving DecidableEq, Repr

/-- Lookup workSheetsFromFile.find of the sheet with the given name
(importtask.js lines 355 and 387). -/
def findSheet (sheets : List Sheet) (sheetName : String) : Option Sheet :=
  sheets.find? (fun s => s.name == sheetName)

/-- The options of `importTaskFromFile` that the embedded control flow
reads. -/
structure ImportOptions where
  fileType : String
  sheetName : String
  importApp : Bool
  importAppSheetName : String
  limitImportCount : String
deriving DecidableEq, Repr

/-- An observable network-write step of one import run: uploading the app of
one app-definition row, or creating one task (together with its schedule
events). -/
inductive ImportEvent where
  | appUpload (row : Nat)
  | taskCreate (group : Nat)
deriving DecidableEq, Repr

/-- Result of one `importTaskFromFile` run: the network-write steps it
performed, in order, and its outcome (`Except.error` models a thrown
validation error that lands in the surrounding `catch`). -/
structure ImportRunResult where
  events : List ImportEvent
  outcome : Except String Unit
deriving Repr

/-- Modelled from the spec: Phase 0 uploads the QVF of each app-definition
row of the app sheet, one upload per data row, in row order
(`QlikSenseApps.importAppsFromFiles` lives in `lib/app/class_allapps.js`,
which is not part of the source snapshot). -/
def appUploadEvents (appSheetData : List (List Cell)) : List ImportEvent :=
  (List.range (appSheetData.drop 1).length).map ImportEvent.appUpload

/-- Modelled from the spec: Phase A creates one task per task record; the
parser groups consecutive sheet rows that share the leading `Task counter`
value into one task record (§4.4 of the spec; `getTaskModelFromFile` lives
in `lib/task/class_alltasks.js`, which is not part of the source
snapshot). -/
def taskCreateEvents (taskCounterPos : Nat) (taskSheetData : List (List Cell)) :
    List ImportEvent :=
  match taskSheetData with
  | [] => []
  | _hdr :: rows =>
    (List.range (groupRows (fun r => r.get? taskCounterPos) rows).length).map
      ImportEvent.taskCreate

/-- The Excel branch of `importTaskFromFile` (importtask.js lines 350-414):
look up the task sheet (throwing when it is absent), apply the import
limit, look up the app sheet when `--import-app` is set (throwing when
absent), then run the app uploads to completion (`await
qlikSenseApps.importAppsFromFiles(...)`) before any task creation
(`qlikSenseTasks.getTaskModelFromFile(...)`) starts.  The task-counter
column position used by the limit step is passed in as
`taskCounterPos`. -/
def importTaskFromFileExcelRun (o : ImportOptions) (taskCounterPos : Nat)
    (sheets : List Sheet) : ImportRunResult :=
  match findSheet sheets o.sheetName with
  | none => ⟨[], .error "EXCEL IMPORT: cant find task sheet in file"⟩
  | some taskSheet =>
    let taskData := excelLimitData o.limitImportCount taskCounterPos taskSheet.data
    if o.importApp then
      match findSheet sheets o.importAppSheetName with
      | none => ⟨[], .error "EXCEL IMPORT: cant find app sheet in file"⟩
      | some appSheet =>
        ⟨appUploadEvents appSheet.data ++ taskCreateEvents taskCounterPos taskData, .ok ()⟩
    else ⟨taskCreateEvents taskCounterPos taskData, .ok ()⟩

/-- Modelled from the spec: exit codes are `0` on success and non-zero on
any validation or server error (`catchLog` and the CLI driver are not part
of the source snapshot). -/
def exitCodeOfRun (r : ImportRunResult) : Nat :=
  match r.outcome with
  | .ok _ => 0
  | .error _ => 1

/-! ## De-duplication of circular task chains (vistask.js) -/

/-- A task node as referenced by a detected circular chain. -/
structure TaskNodeRef where
  id : String
  taskName : String
deriving DecidableEq, Repr

/-- One circular task chain reported by `findCircularTaskChains`: a back
edge from `fromTask` to `toTask`. -/
structure CircularTaskChain where
  fromTask : TaskNodeRef
  toTask : TaskNodeRef
deriving DecidableEq, Repr

/-- The predicate of the `findIndex` call in vistask.js line 623:
`c.fromTask.id === chain.fromTask.id && c.toTask.id === chain.toTask.id`. -/
def sameOrderedEndpoints (chain c : CircularTaskChain) : Bool :=
  c.fromTask.id == chain.fromTask.id && c.toTask.id == chain.toTask.id

/-- JavaScript `Array.prototype.filter` with the element index exposed to
the callback, starting at index `i`. -/
def filterWithIndexFrom (p : Nat → CircularTaskChain → Bool) (i : Nat) :
    List CircularTaskChain → List CircularTaskChain
  | [] => []
  | a :: as_ =>
    if p i a then a :: filterWithIndexFrom p (i + 1) as_
    else filterWithIndexFrom p (i + 1) as_

/-- The de-duplication of detected circular task chains (vistask.js lines
621-624): `circularTaskChains.filter((chain, index, self) =>
self.findIndex(c => c.fromTask.id === chain.fromTask.id && c.toTask.id ===
chain.toTask.id) === index)`. -/
def dedupCircularTaskChains (chains : List CircularTaskChain) : List CircularTaskChain :=
  filterWithIndexFrom
    (fun index chain => chains.findIdx? (sameOrderedEndpoints chain) == some index) 0 chains

/-- The ordered endpoint identity of a circular chain (the key the source's
de-duplication actually uses). -/
def orderedKey (c : CircularTaskChain) : String × String :=
  (c.fromTask.id, c.toTask.id)

/-- The unordered endpoint identity the spec sentence describes: the two
chains connect the same unordered pair of task ids. -/
def sameUnorderedEndpoints (c d : CircularTaskChain) : Bool :=
  (c.fromTask.id == d.fromTask.id && c.toTask.id == d.toTask.id)
    || (c.fromTask.id == d.toTask.id && c.toTask.id == d.fromTask.id)

/-! ## Task trees: `cleanupTaskTree` and the file branch of `parseTree`
    (gettask.js) -/

mutual
/-- A node of the task tree built by `parseTree`: a JavaScript object, i.e.
a finite list of named properties. -/
inductive TaskTreeNode where
  | mk (props : TaskTreePropList)

/-- The property list of one task-tree node. -/
inductive TaskTreePropList where
  | nil
  | cons (key : String) (val : TaskTreeVal) (rest : TaskTreePropList)

/-- A property value: a primitive (modelled by its string rendering — names,
ids, status texts, booleans; `typeof` is not `'object'`) or a nested array
of child nodes (`typeof` is `'object'`). -/
inductive TaskTreeVal where
  | prim (s : String)
  | nodes (children : TaskTreeNodeList)

/-- An array of task-tree nodes. -/
inductive TaskTreeNodeList where
  | nil
  | cons (head : TaskTreeNode) (tail : TaskTreeNodeList)
end

mutual
/-- Model of cleanupTaskTree (gettask.js lines 48-58) on an array of nodes:
`taskTree.forEach(element => ...)`. -/
def cleanupTaskTree : TaskTreeNodeList → TaskTreeNodeList
  | .nil => .nil
  | .cons n rest => .cons (cleanupNode n) (cleanupTaskTree rest)

/-- The loop body of `cleanupTaskTree` on one node: `for (const prop in
element)`: a property whose key is neither `text` nor `children` is
deleted; a kept property whose value is an object is cleaned
recursively. -/
def cleanupNode : TaskTreeNode → TaskTreeNode
  | .mk props => .mk (cleanupProps props)

/-- The per-property case split of `cleanupTaskTree`. -/
def cleanupProps : TaskTreePropList → TaskTreePropList
  | .nil => .nil
  | .cons k v rest =>
    if k != "text" && k != "children" then cleanupProps rest
    else .cons k (cleanupVal v) (cleanupProps rest)

/-- Recursion into a kept property value: objects are cleaned, primitives
are left alone. -/
def cleanupVal : TaskTreeVal → TaskTreeVal
  | .prim s => .prim s
  | .nodes children => .nodes (cleanupTaskTree children)
end

mutual
/-- Every node of the array, at every depth, carries only properties named
`text` or `children`. -/
def nodeListOnlyTextChildren : TaskTreeNodeList → Bool
  | .nil => true
  | .cons n rest => nodeOnlyTextChildren n && nodeListOnlyTextChildren rest

/-- Every property of the node is named `text` or `children`, recursively. -/
def nodeOnlyTextChildren : TaskTreeNode → Bool
  | .mk props => propsOnlyTextChildren props

/-- Every property of the list is named `text` or `children`,
recursively. -/
def propsOnlyTextChildren : TaskTreePropList → Bool
  | .nil => true
  | .cons k v rest =>
    (k == "text" || k == "children") && valOnlyTextChildren v && propsOnlyTextChildren rest

/-- Every node nested below the value carries only `text` / `children`
properties. -/
def valOnlyTextChildren : TaskTreeVal → Bool
  | .prim _ => true
  | .nodes children => nodeListOnlyTextChildren children
end

/-- Outcome of the file branch of `parseTree`: the cleaned tree that is
serialized and written, or `process.exit` with the given code. -/
inductive TreeFileOutcome where
  | written (content : TaskTreeNodeList)
  | exitCode (code : Nat)

/-- The `options.outputDest === 'file'` branch of `parseTree` (gettask.js
lines 857-891): with output file format `json` the tree is cleaned with
`cleanupTaskTree`, serialized, and written (after the overwrite check:
an existing file with no `--output-file-overwrite` flag prompts the user
and a negative answer exits with code 1); any other output file format
logs an error and exits with code 1 before anything is written. -/
def parseTreeFileOutput (outputFileFormat : String)
    (fileExists overwriteFlag promptAnswerYes : Bool)
    (taskTree : TaskTreeNodeList) : TreeFileOutcome :=
  if outputFileFormat == "json" then
    let buffer := cleanupTaskTree taskTree
    if fileExists && !overwriteFlag && !promptAnswerYes then .exitCode 1
    else .written buffer
  else .exitCode 1

/-! ## The tabular task exporter (`parseTable`, gettask.js lines 173-658)

The exporter is modelled with every `--table-details` column block enabled
and both task types (`reload`, `ext-program`) selected, which is the
configuration that produces the full 41-column export table.  The numeric
code → string lookup tables `mapEventType`, `mapIncrementOption`,
`mapDaylightSavingTime` and `mapRuleState` (lib/util/qseow/lookups.js, not
part of the source snapshot) are applied at the boundary; the model stores
the already-mapped strings in its event records, with the event-type
strings `Schema` / `Composite` fixed by the repository README's import
grammar. -/

/-- The kind of a task (`completeTaskObject.schemaPath`). -/
inductive TaskKind where
  | reload
  | externalProgram
deriving DecidableEq, Repr

/-- The schemaPath string of completeTaskObject for each kind. -/
def schemaPathString : TaskKind → String
  | .reload => "ReloadTask"
  | .externalProgram => "ExternalProgramTask"

/-- The `Task type` cell the exporter emits for each kind (gettask.js lines
247-251). -/
def taskTypeString : TaskKind → String
  | .reload => "Reload"
  | .externalProgram => "External program"

/-- The status-icon decoration of `task.taskLastStatus` (gettask.js lines
230-245); an empty status stays empty. -/
def taskStatusIconString (s : String) : String :=
  if s == "" then ""
  else if s == "FinishedSuccess" then "✅ " ++ s
  else if s == "FinishedFail" then "❌ " ++ s
  else if s == "Skipped" then "🚫 " ++ s
  else if s == "Aborted" then "🛑 " ++ s
  else if s == "Never started" then "💤 " ++ s
  else "❔ " ++ s

/-- One task of the in-memory task model (`taskNetwork.tasks`), restricted
to the fields `parseTable` reads.  String fields that the source guards
with `x ? x : ''` are stored as plain strings with `""` for absence. -/
structure ModelTask where
  taskId : String
  taskName : String
  kind : TaskKind
  taskEnabled : Bool
  taskSessionTimeout : Int
  taskMaxRetries : Int
  appId : String
  isPartialReload : Bool
  isManuallyTriggered : Bool
  extPath : String
  extParameters : String
  taskTags : List String
  taskCustomProperties : List (String × String)
  taskLastStatus : String
  lastExecStart : String
  lastExecStop : String
  lastExecDuration : String
  lastExecNode : String
deriving DecidableEq, Repr

/-- One schema event of `qlikSenseSchemaEvents.schemaEventList`, restricted
to the fields `parseTable` reads; `ownerId` is the id of the owning reload
or external-program task and `filterDescr` is `schemaFilterDescription[0]`.
The `incrementOption` / `daylightSavingTime` fields hold the
already-mapped strings. -/
structure ModelSchemaEvent where
  ownerId : String
  name : String
  enabled : Bool
  createdDate : String
  modifiedDate : String
  modifiedByUserName : String
  incrementOption : String
  incrementDescription : String
  daylightSavingTime : String
  startDate : String
  expirationDate : String
  filterDescr : String
  timeZone : String
deriving DecidableEq, Repr

/-- One composite rule; each rule of the source carries either a
`reloadTask` or an `externalProgramTask` reference whose `name` / `id`
are emitted, collapsed here into one pair, and `ruleState` holds the
already-mapped string. -/
structure ModelCompositeRule where
  ruleState : String
  upstreamTaskName : String
  upstreamTaskId : String
deriving DecidableEq, Repr

/-- One composite event of `qlikSenseCompositeEvents.compositeEventList`,
restricted to the fields `parseTable` reads. -/
structure ModelCompositeEvent where
  ownerId : String
  name : String
  enabled : Bool
  createdDate : String
  modifiedDate : String
  modifiedByUserName : String
  tcSeconds : Int
  tcMinutes : Int
  tcHours : Int
  tcDays : Int
  rules : List ModelCompositeRule
deriving DecidableEq, Repr

/-- The in-memory task model a `task-get` run assembles: tasks, schema
events and composite events (events joined to tasks by owner id). -/
structure TaskModel where
  tasks : List ModelTask
  schemaEvents : List ModelSchemaEvent
  compositeEvents : List ModelCompositeEvent
deriving DecidableEq, Repr

/-- The header row of the export table with every column block enabled
(gettask.js lines 536-600), including the source's misspelled
`Time contstraint …` column names. -/
def exportHeaderRow : List Cell :=
  [Cell.str "Task counter", Cell.str "Task type",
   Cell.str "Task name", Cell.str "Task id", Cell.str "Task enabled",
   Cell.str "Task timeout", Cell.str "Task retries", Cell.str "App id",
   Cell.str "Partial reload", Cell.str "Manually triggered",
   Cell.str "Ext program path", Cell.str "Ext program parameters",
   Cell.str "Task status", Cell.str "Task started", Cell.str "Task ended",
   Cell.str "Task duration", Cell.str "Task executedon node",
   Cell.str "Tags", Cell.str "Custom properties",
   Cell.str "Event counter", Cell.str "Event type", Cell.str "Event name",
   Cell.str "Event enabled", Cell.str "Event created date",
   Cell.str "Event modified date", Cell.str "Event modified by",
   Cell.str "Schema increment option", Cell.str "Schema increment description",
   Cell.str "Daylight savings time", Cell.str "Schema start",
   Cell.str "Schema expiration", Cell.str "Schema filter description",
   Cell.str "Schema time zone",
   Cell.str "Time contstraint seconds", Cell.str "Time contstraint minutes",
   Cell.str "Time contstraint hours", Cell.str "Time contstraint days",
   Cell.str "Rule counter", Cell.str "Rule state", Cell.str "Rule task name",
   Cell.str "Rule task id"]

/-- The main-info row of one task (gettask.js lines 225-314): task counter,
type, the `common` block, the `lastexecution` block, joined tags, joined
custom properties, then the empty event / schema / composite column
blocks. -/
def exportTaskRow (count : Int) (t : ModelTask) : List Cell :=
  [Cell.int count, Cell.str (taskTypeString t.kind),
   Cell.str t.taskName, Cell.str t.taskId, Cell.bool t.taskEnabled,
   Cell.int t.taskSessionTimeout, Cell.int t.taskMaxRetries,
   Cell.str t.appId,
   (if t.isPartialReload then Cell.bool true else Cell.str ""),
   (if t.isManuallyTriggered then Cell.bool true else Cell.str ""),
   Cell.str t.extPath, Cell.str t.extParameters,
   Cell.str (taskStatusIconString t.taskLastStatus),
   Cell.str t.lastExecStart, Cell.str t.lastExecStop,
   Cell.str t.lastExecDuration, Cell.str t.lastExecNode,
   Cell.str (String.intercalate " / " t.taskTags),
   Cell.str (String.intercalate " / "
     (t.taskCustomProperties.map (fun p => p.1 ++ "=" ++ p.2))),
   Cell.str "", Cell.str "", Cell.str "", Cell.str "", Cell.str "",
   Cell.str "", Cell.str "", Cell.str "", Cell.str "", Cell.str "",
   Cell.str "", Cell.str "", Cell.str "", Cell.str "", Cell.str "",
   Cell.str "", Cell.str "", Cell.str "", Cell.str "", Cell.str "",
   Cell.str "", Cell.str ""]

/-- One schema-event row (gettask.js lines 339-392). -/
def exportSchemaEventRow (count eventCount : Int) (e : ModelSchemaEvent) : List Cell :=
  [Cell.int count, Cell.str "",
   Cell.str "", Cell.str "", Cell.str "", Cell.str "", Cell.str "",
   Cell.str "", Cell.str "", Cell.str "", Cell.str "", Cell.str "",
   Cell.str "", Cell.str "", Cell.str "", Cell.str "", Cell.str "",
   Cell.str "", Cell.str "",
   Cell.int eventCount, Cell.str "Schema",
   Cell.str e.name, Cell.bool e.enabled, Cell.str e.createdDate,
   Cell.str e.modifiedDate, Cell.str e.modifiedByUserName,
   Cell.str e.incrementOption, Cell.str e.incrementDescription,
   Cell.str e.daylightSavingTime, Cell.str e.startDate,
   Cell.str e.expirationDate, Cell.str e.filterDescr, Cell.str e.timeZone,
   Cell.str "", Cell.str "", Cell.str "", Cell.str "", Cell.str "",
   Cell.str "", Cell.str "", Cell.str ""]

/-- The event-info row of one composite event (gettask.js lines 396-455). -/
def exportCompositeEventRow (count eventCount : Int) (e : ModelCompositeEvent) : List Cell :=
  [Cell.int count, Cell.str "",
   Cell.str "", Cell.str "", Cell.str "", Cell.str "", Cell.str "",
   Cell.str "", Cell.str "", Cell.str "", Cell.str "", Cell.str "",
   Cell.str "", Cell.str "", Cell.str "", Cell.str "", Cell.str "",
   Cell.str "", Cell.str "",
   Cell.int eventCount, Cell.str "Composite",
   Cell.str e.name, Cell.bool e.enabled, Cell.str e.createdDate,
   Cell.str e.modifiedDate, Cell.str e.modifiedByUserName,
   Cell.str "", Cell.str "", Cell.str "", Cell.str "", Cell.str "",
   Cell.str "", Cell.str "",
   Cell.int e.tcSeconds, Cell.int e.tcMinutes, Cell.int e.tcHours,
   Cell.int e.tcDays,
   Cell.str "", Cell.str "", Cell.str "", Cell.str ""]

/-- One composite-rule row (gettask.js lines 460-523). -/
def exportCompositeRuleRow (count eventCount ruleCount : Int)
    (r : ModelCompositeRule) : List Cell :=
  [Cell.int count, Cell.str "",
   Cell.str "", Cell.str "", Cell.str "", Cell.str "", Cell.str "",
   Cell.str "", Cell.str "", Cell.str "", Cell.str "", Cell.str "",
   Cell.str "", Cell.str "", Cell.str "", Cell.str "", Cell.str "",
   Cell.str "", Cell.str "",
   Cell.int eventCount, Cell.str "", Cell.str "", Cell.str "",
   Cell.str "", Cell.str "", Cell.str "",
   Cell.str "", Cell.str "", Cell.str "", Cell.str "", Cell.str "",
   Cell.str "", Cell.str "",
   Cell.str "", Cell.str "", Cell.str "", Cell.str "",
   Cell.int ruleCount, Cell.str r.ruleState,
   Cell.str r.upstreamTaskName, Cell.str r.upstreamTaskId]

/-- The rule rows of one composite event, with `ruleCount` starting at 1
and incremented per rule (gettask.js lines 458-523). -/
def exportRuleRows (count eventCount : Int) (ruleCount : Int) :
    List ModelCompositeRule → List (List Cell)
  | [] => []
  | r :: rs =>
    exportCompositeRuleRow count eventCount ruleCount r
      :: exportRuleRows count eventCount (ruleCount + 1) rs

/-- The schema-event rows of one task, one single-row block per event, with
`eventCount` incremented per event (gettask.js lines 339-392). -/
def schemaEventBlocks (count eventCount : Int) :
    List ModelSchemaEvent → List (List (List Cell))
  | [] => []
  | e :: es => [exportSchemaEventRow count eventCount e]
      :: schemaEventBlocks count (eventCount + 1) es

/-- The composite-event rows of one task: per event its event-info row
followed by its rule rows, with `eventCount` incremented per event
(gettask.js lines 396-527). -/
def compositeEventBlocks (count eventCount : Int) :
    List ModelCompositeEvent → List (List (List Cell))
  | [] => []
  | e :: es =>
    (exportCompositeEventRow count eventCount e :: exportRuleRows count eventCount 1 e.rules)
      :: compositeEventBlocks count (eventCount + 1) es

/-- The schema events of one task, schemaEventList filtered on the owning task id (gettask.js
lines 317-325). -/
def schemaEventsForTask (m : TaskModel) (t : ModelTask) : List ModelSchemaEvent :=
  m.schemaEvents.filter (fun e => e.ownerId == t.taskId)

/-- The composite events of one task, compositeEventList filtered on the owning
task id (gettask.js lines 328-336). -/
def compositeEventsForTask (m : TaskModel) (t : ModelTask) : List ModelCompositeEvent :=
  m.compositeEvents.filter (fun e => e.ownerId == t.taskId)

/-- All export rows of one task: its main-info row, then its schema-event
rows (`eventCount` from 1), then its composite-event rows (`eventCount`
continuing after the schema events).  The rows are grouped here by the loop
iteration that emits them; flattening the groups gives the emission
order of the source. -/
def exportRowsForTask (m : TaskModel) (count : Int) (t : ModelTask) : List (List Cell) :=
  exportTaskRow count t
    :: (schemaEventBlocks count 1 (schemaEventsForTask m t)
        ++ compositeEventBlocks count (1 + ((schemaEventsForTask m t).length : Int))
            (compositeEventsForTask m t)).flatten

/-- The per-task row blocks of the export table, with `taskCount` starting
at 1 and incremented per task (gettask.js lines 220-533). -/
def taskBlocks (m : TaskModel) (count : Int) : List ModelTask → List (List (List Cell))
  | [] => []
  | t :: ts => exportRowsForTask m count t :: taskBlocks m (count + 1) ts

/-- The sort key of `compareTable` (gettask.js lines 82-96):
`schemaPath|taskName`. -/
def taskSortKey (t : ModelTask) : String :=
  schemaPathString t.kind ++ "|" ++ t.taskName

/-- The task sort tasks.sort(compareTable) (gettask.js line 184), modelled as a stable
merge sort over the comparator's key order. -/
def sortTasks (ts : List ModelTask) : List ModelTask :=
  ts.mergeSort (fun a b => decide (taskSortKey a ≤ taskSortKey b))

/-- The full export table (header row plus all task rows) that `parseTable`
serializes when writing to a file. -/
def exportTable (m : TaskModel) : List (List Cell) :=
  exportHeaderRow :: (taskBlocks m 1 (sortTasks m.tasks)).flatten

/-! ## The import parser (spec-modelled)

`getTaskModelFromFile` and `getTaskColumnPosFromHeaderRow` live in
`lib/task/class_alltasks.js` and `lib/util/qseow/lookups.js`, which are not
part of the source snapshot.  The parser below is modelled from the spec
(§4.4 input shape, column grammar and row grouping; §6 tabular grammar)
with the exact mandatory column names taken from the repository README,
including the misspelled `Time contstraint …` names. -/

/-- Position of a named column in the header row (`col-ref-by name`). -/
def colPosInHeader (header : List Cell) (name : String) : Option Nat :=
  header.findIdx? (fun c => c == Cell.str name)

/-- The resolved positions of the mandatory task-definition columns. -/
structure TaskColPositions where
  taskCounter : Nat
  taskType : Nat
  taskName : Nat
  taskId : Nat
  taskEnabled : Nat
  taskTimeout : Nat
  taskRetries : Nat
  appId : Nat
  partialReload : Nat
  manuallyTriggered : Nat
  tags : Nat
  customProperties : Nat
  eventCounter : Nat
  eventType : Nat
  eventName : Nat
  eventEnabled : Nat
  schemaIncrementOption : Nat
  schemaIncrementDescription : Nat
  daylightSavingsTime : Nat
  schemaStart : Nat
  schemaExpiration : Nat
  schemaFilterDescription : Nat
  schemaTimeZone : Nat
  tcSeconds : Nat
  tcMinutes : Nat
  tcHours : Nat
  tcDays : Nat
  ruleCounter : Nat
  ruleState : Nat
  ruleTaskName : Nat
  ruleTaskId : Nat
deriving DecidableEq, Repr

/-- Modelled from the spec: the column lookup resolves every mandatory
column name of §6 against the header row and fails when one is absent. -/
def resolveTaskCols (header : List Cell) : Option TaskColPositions :=
  match colPosInHeader header "Task counter" with
  | none => none
  | some taskCounter =>
  match colPosInHeader header "Task type" with
  | none => none
  | some taskType =>
  match colPosInHeader header "Task name" with
  | none => none
  | some taskName =>
  match colPosInHeader header "Task id" with
  | none => none
  | some taskId =>
  match colPosInHeader header "Task enabled" with
  | none => none
  | some taskEnabled =>
  match colPosInHeader header "Task timeout" with
  | none => none
  | some taskTimeout =>
  match colPosInHeader header "Task retries" with
  | none => none
  | some taskRetries =>
  match colPosInHeader header "App id" with
  | none => none
  | some appId =>
  match colPosInHeader header "Partial reload" with
  | none => none
  | some partialReload =>
  match colPosInHeader header "Manually triggered" with
  | none => none
  | some manuallyTriggered =>
  match colPosInHeader header "Tags" with
  | none => none
  | some tags =>
  match colPosInHeader header "Custom properties" with
  | none => none
  | some customProperties =>
  match colPosInHeader header "Event counter" with
  | none => none
  | some eventCounter =>
  match colPosInHeader header "Event type" with
  | none => none
  | some eventType =>
  match colPosInHeader header "Event name" with
  | none => none
  | some eventName =>
  match colPosInHeader header "Event enabled" with
  | none => none
  | some eventEnabled =>
  match colPosInHeader header "Schema increment option" with
  | none => none
  | some schemaIncrementOption =>
  match colPosInHeader header "Schema increment description" with
  | none => none
  | some schemaIncrementDescription =>
  match colPosInHeader header "Daylight savings time" with
  | none => none
  | some daylightSavingsTime =>
  match colPosInHeader header "Schema start" with
  | none => none
  | some schemaStart =>
  match colPosInHeader header "Schema expiration" with
  | none => none
  | some schemaExpiration =>
  match colPosInHeader header "Schema filter description" with
  | none => none
  | some schemaFilterDescription =>
  match colPosInHeader header "Schema time zone" with
  | none => none
  | some schemaTimeZone =>
  match colPosInHeader header "Time contstraint seconds" with
  | none => none
  | some tcSeconds =>
  match colPosInHeader header "Time contstraint minutes" with
  | none => none
  | some tcMinutes =>
  match colPosInHeader header "Time contstraint hours" with
  | none => none
  | some tcHours =>
  match colPosInHeader header "Time contstraint days" with
  | none => none
  | some tcDays =>
  match colPosInHeader header "Rule counter" with
  | none => none
  | some ruleCounter =>
  match colPosInHeader header "Rule state" with
  | none => none
  | some ruleState =>
  match colPosInHeader header "Rule task name" with
  | none => none
  | some ruleTaskName =>
  match colPosInHeader header "Rule task id" with
  | none => none
  | some ruleTaskId =>
  some
    { taskCounter, taskType, taskName, taskId, taskEnabled, taskTimeout,
      taskRetries, appId, partialReload, manuallyTriggered, tags,
      customProperties, eventCounter, eventType, eventName, eventEnabled,
      schemaIncrementOption, schemaIncrementDescription, daylightSavingsTime,
      schemaStart, schemaExpiration, schemaFilterDescription, schemaTimeZone,
      tcSeconds, tcMinutes, tcHours, tcDays, ruleCounter, ruleState,
      ruleTaskName, ruleTaskId }

/-- The column positions the lookup resolves on the exporter's header row
(all 41 export columns present, mandatory import columns among them). -/
def exportTableCols : TaskColPositions :=
  { taskCounter := 0, taskType := 1, taskName := 2, taskId := 3,
    taskEnabled := 4, taskTimeout := 5, taskRetries := 6, appId := 7,
    partialReload := 8, manuallyTriggered := 9, tags := 17,
    customProperties := 18, eventCounter := 19, eventType := 20,
    eventName := 21, eventEnabled := 22, schemaIncrementOption := 26,
    schemaIncrementDescription := 27, daylightSavingsTime := 28,
    schemaStart := 29, schemaExpiration := 30, schemaFilterDescription := 31,
    schemaTimeZone := 32, tcSeconds := 33, tcMinutes := 34, tcHours := 35,
    tcDays := 36, ruleCounter := 37, ruleState := 38, ruleTaskName := 39,
    ruleTaskId := 40 }

/-- Modelled from the spec: string content of a cell of a string-typed
column (spreadsheet cells arrive typed; absent cells read as empty). -/
def cellGetStr (c : Option Cell) : String :=
  match c with
  | some (.str s) => s
  | some (.int n) => toString n
  | some (.bool b) => if b then "true" else "false"
  | none => ""

/-- Modelled from the spec: value of a cell of a `bool01` column (`0`, `1`
or empty, empty meaning false; spreadsheet booleans are taken as they
are). -/
def cellGetBool01 (c : Option Cell) : Bool :=
  match c with
  | some (.bool b) => b
  | some (.str s) => s == "1"
  | some (.int n) => n == 1
  | none => false

/-- Modelled from the spec: value of a cell of an integer column. -/
def cellGetInt (c : Option Cell) : Int :=
  match c with
  | some (.int n) => n
  | some (.str s) => (parseIntJs s).getD 0
  | some (.bool b) => if b then 1 else 0
  | none => 0

/-- Is the cell a (spreadsheet) number?  Used to tell rule rows (whose
`Rule counter` holds a number) from event-info rows (where it is empty). -/
def cellIsInt (c : Option Cell) : Bool :=
  match c with
  | some (.int _) => true
  | _ => false

/-- A schema trigger as recovered by the import parser. -/
structure ParsedSchemaTrigger where
  name : String
  enabled : Bool
  incrementOption : String
  incrementDescription : String
  daylightSavingTime : String
  startDate : String
  expirationDate : String
  filterDescr : String
  timeZone : String
deriving DecidableEq, Repr

/-- A composite rule as recovered by the import parser; `upstreamTaskId` is
the value of the `Rule task id` column, i.e. the local-counter namespace
re-derived from the `Task id` column of the same file. -/
structure ParsedRule where
  ruleState : String
  upstreamTaskName : String
  upstreamTaskId : String
deriving DecidableEq, Repr

/-- A composite trigger as recovered by the import parser. -/
structure ParsedCompositeTrigger where
  name : String
  enabled : Bool
  tcSeconds : Int
  tcMinutes : Int
  tcHours : Int
  tcDays : Int
  rules : List ParsedRule
deriving DecidableEq, Repr

/-- A task record as recovered by the import parser; `localId` is the value
of the `Task id` column, the per-run local-counter namespace that rules
reference. -/
structure ParsedTask where
  taskType : String
  name : String
  localId : String
  enabled : Bool
  timeout : Int
  retries : Int
  appId : String
  partialReload : Bool
  manuallyTriggered : Bool
  schemaTriggers : List ParsedSchemaTrigger
  compositeTriggers : List ParsedCompositeTrigger
deriving DecidableEq, Repr

/-- Modelled from the spec: one rule per row carrying a `Rule counter`
value, read from the rule columns. -/
def parseRuleRow (cols : TaskColPositions) (row : List Cell) : ParsedRule :=
  { ruleState := cellGetStr (row.get? cols.ruleState)
    upstreamTaskName := cellGetStr (row.get? cols.ruleTaskName)
    upstreamTaskId := cellGetStr (row.get? cols.ruleTaskId) }

/-- Modelled from the spec: an event group whose first row has `Event type`
`Schema` yields one schema trigger, read from the schema columns of that
row. -/
def parseSchemaGroup (cols : TaskColPositions) (rows : List (List Cell)) :
    Option ParsedSchemaTrigger :=
  match rows with
  | [] => none
  | first :: _ =>
    if cellGetStr (first.get? cols.eventType) == "Schema" then
      some
        { name := cellGetStr (first.get? cols.eventName)
          enabled := cellGetBool01 (first.get? cols.eventEnabled)
          incrementOption := cellGetStr (first.get? cols.schemaIncrementOption)
          incrementDescription := cellGetStr (first.get? cols.schemaIncrementDescription)
          daylightSavingTime := cellGetStr (first.get? cols.daylightSavingsTime)
          startDate := cellGetStr (first.get? cols.schemaStart)
          expirationDate := cellGetStr (first.get? cols.schemaExpiration)
          filterDescr := cellGetStr (first.get? cols.schemaFilterDescription)
          timeZone := cellGetStr (first.get? cols.schemaTimeZone) }
    else none

/-- Modelled from the spec: an event group whose first row has `Event type`
`Composite` yields one composite trigger; its rules come from the rows of
the group that carry a `Rule counter` value. -/
def parseCompositeGroup (cols : TaskColPositions) (rows : List (List Cell)) :
    Option ParsedCompositeTrigger :=
  match rows with
  | [] => none
  | first :: _ =>
    if cellGetStr (first.get? cols.eventType) == "Composite" then
      some
        { name := cellGetStr (first.get? cols.eventName)
          enabled := cellGetBool01 (first.get? cols.eventEnabled)
          tcSeconds := cellGetInt (first.get? cols.tcSeconds)
          tcMinutes := cellGetInt (first.get? cols.tcMinutes)
          tcHours := cellGetInt (first.get? cols.tcHours)
          tcDays := cellGetInt (first.get? cols.tcDays)
          rules := (rows.filter (fun r => cellIsInt (r.get? cols.ruleCounter))).map
            (parseRuleRow cols) }
    else none

/-- Modelled from the spec: one task record per `Task counter` group; the
first row of the group carries the top-level task fields, the remaining
rows are grouped by `Event counter` into schema and composite triggers. -/
def parseTaskGroup (cols : TaskColPositions) (rows : List (List Cell)) : ParsedTask :=
  match rows with
  | [] =>
    { taskType := "", name := "", localId := "", enabled := false, timeout := 0,
      retries := 0, appId := "", partialReload := false,
      manuallyTriggered := false, schemaTriggers := [], compositeTriggers := [] }
  | first :: rest =>
    let egroups := groupRows (fun r => r.get? cols.eventCounter) rest
    { taskType := cellGetStr (first.get? cols.taskType)
      name := cellGetStr (first.get? cols.taskName)
      localId := cellGetStr (first.get? cols.taskId)
      enabled := cellGetBool01 (first.get? cols.taskEnabled)
      timeout := cellGetInt (first.get? cols.taskTimeout)
      retries := cellGetInt (first.get? cols.taskRetries)
      appId := cellGetStr (first.get? cols.appId)
      partialReload := cellGetBool01 (first.get? cols.partialReload)
      manuallyTriggered := cellGetBool01 (first.get? cols.manuallyTriggered)
      schemaTriggers := egroups.filterMap (parseSchemaGroup cols)
      compositeTriggers := egroups.filterMap (parseCompositeGroup cols) }

/-- Modelled from the spec: the whole import parser — resolve the mandatory
columns against the header row (failing when one is missing), group the
data rows by `Task counter`, and parse each group into a task record. -/
def parseImportTable (table : List (List Cell)) : Option (List ParsedTask) :=
  match table with
  | [] => none
  | header :: dataRows =>
    match resolveTaskCols header with
    | none => none
    | some cols =>
      some ((groupRows (fun r => r.get? cols.taskCounter) dataRows).map
        (parseTaskGroup cols))

/-- The schema-trigger record that re-importing an exported schema event
should recover. -/
def expectedSchemaTrigger (e : ModelSchemaEvent) : ParsedSchemaTrigger :=
  { name := e.name, enabled := e.enabled, incrementOption := e.incrementOption,
    incrementDescription := e.incrementDescription,
    daylightSavingTime := e.daylightSavingTime, startDate := e.startDate,
    expirationDate := e.expirationDate, filterDescr := e.filterDescr,
    timeZone := e.timeZone }

/-- The rule record that re-importing an exported composite rule should
recover. -/
def expectedRule (r : ModelCompositeRule) : ParsedRule :=
  { ruleState := r.ruleState, upstreamTaskName := r.upstreamTaskName,
    upstreamTaskId := r.upstreamTaskId }

/-- The composite-trigger record that re-importing an exported composite
event should recover. -/
def expectedCompositeTrigger (e : ModelCompositeEvent) : ParsedCompositeTrigger :=
  { name := e.name, enabled := e.enabled, tcSeconds := e.tcSeconds,
    tcMinutes := e.tcMinutes, tcHours := e.tcHours, tcDays := e.tcDays,
    rules := e.rules.map expectedRule }

/-- The task record that re-importing an exported task should recover: the
task's own fields plus its trigger definitions, with `localId` carrying the
exported `Task id`. -/
def expectedParsedTask (m : TaskModel) (t : ModelTask) : ParsedTask :=
  { taskType := taskTypeString t.kind, name := t.taskName, localId := t.taskId,
    enabled := t.taskEnabled, timeout := t.taskSessionTimeout,
    retries := t.taskMaxRetries, appId := t.appId,
    partialReload := t.isPartialReload,
    manuallyTriggered := t.isManuallyTriggered,
    schemaTriggers := (schemaEventsForTask m t).map expectedSchemaTrigger,
    compositeTriggers := (compositeEventsForTask m t).map expectedCompositeTrigger }

/-! # Theorems -/

/-! ## Shared helper lemmas -/

theorem groupRows_nil (key : List Cell → Option Cell) : groupRows key [] = [] := by
  rw [groupRows]

theorem groupRows_cons (key : List Cell → Option Cell) (r : List Cell) (rs : List (List Cell)) :
    groupRows key (r :: rs)
      = (r :: rs.takeWhile (fun r2 => key r2 == key r))
        :: groupRows key (rs.dropWhile (fun r2 => key r2 == key r)) := by
  rw [groupRows]

theorem csvRecordsFrom_fst_ge (src : List (List String)) :
    ∀ (n : Nat) (p : Nat × List String), p ∈ csvRecordsFrom n src → n ≤ p.1 := by
  induction src with
  | nil =>
    intro n p hp
    simp [csvRecordsFrom] at hp
  | cons l rest ih =>
    intro n p hp
    cases hb : isEmptyLine l with
    | true =>
      rw [csvRecordsFrom, hb, if_pos rfl] at hp
      exact le_trans (Nat.le_succ n) (ih (n + 1) p hp)
    | false =>
      rw [csvRecordsFrom, hb] at hp
      simp only [Bool.false_eq_true, if_false, List.mem_cons] at hp
      rcases hp with rfl | hp
      · exact le_refl n
      · exact le_trans (Nat.le_succ n) (ih (n + 1) p hp)

/-! ## Claim C5 -/

/-- C5: for every non-header cell of a 0/1 boolean column (Task enabled,
Partial reload, Manually triggered, Event enabled) of a delimited-text
source, the type coercion returns `true` iff the cell is the string
`"1"`, returns `false` iff the cell is `"0"` or trims to the empty string,
and aborts the import on any other value. -/
theorem c5_bool01_cast (value : String) :
    (castBool01 value = CastResult.ok (Cell.bool true) ↔ value = "1")
    ∧ (castBool01 value = CastResult.ok (Cell.bool false) ↔ (value = "0" ∨ jsTrim value = ""))
    ∧ (value ≠ "1" → value ≠ "0" → jsTrim value ≠ "" → castBool01 value = CastResult.abort) := by
  by_cases h1 : value = "1"
  · subst h1
    exact ⟨by decide, by decide, by decide⟩
  · by_cases h0 : value = "0"
    · subst h0
      exact ⟨by decide, by decide, by decide⟩
    · by_cases ht : jsTrim value = ""
      · have hg : (value == "0" || value == "1" || jsTrim value == "") = true := by
          simp [ht]
        have hv1 : (value == "1") = false := by simp [h1]
        have hv0 : (value == "0") = false := by simp [h0]
        have hres : castBool01 value = CastResult.ok (Cell.bool false) := by
          simp [castBool01, hg, hv1, hv0, ht]
        refine ⟨?_, ?_, ?_⟩
        · rw [hres]; simp [h1]
        · rw [hres]; simp [ht]
        · intro _ _ hcontra; exact absurd ht hcontra
      · have hg : (value == "0" || value == "1" || jsTrim value == "") = false := by
          simp [h1, h0, ht]
        have hres : castBool01 value = CastResult.abort := by
          simp [castBool01, hg]
        refine ⟨?_, ?_, ?_⟩
        · rw [hres]; simp [h1]
        · rw [hres]; simp [h0, ht]
        · intro _ _ _; exact hres

theorem c5_bool01_cast_witness :
    castBool01 "1" = CastResult.ok (Cell.bool true)
    ∧ castBool01 "" = CastResult.ok (Cell.bool false)
    ∧ castBool01 "x" = CastResult.abort :=
  ⟨(c5_bool01_cast "1").1.mpr rfl,
   (c5_bool01_cast "").2.1.mpr (Or.inr (by decide)),
   (c5_bool01_cast "x").2.2 (by decide) (by decide) (by decide)⟩

/-! ## Claim C7 -/

/-- C7 counterexample: the `Task timeout` cell value `0` does not pass the
type coercion — the import aborts on it (for the digit-string `isNumeric`
stand-in; the amended theorem shows the abort for every `isNumeric`). -/
theorem c7_counterexample :
    castTaskSessionTimeout isNumericDigits "0" = CastResult.abort := by decide

/-- C7 amended: the `Task timeout` coercion requires a value that parses to
an integer strictly greater than 0 (accepted as that integer) or a
whitespace-only value (accepted as empty); a value parsing to an integer
`≤ 0` — in particular `0` — aborts the import.  This holds for every choice
of the `isNumeric` helper. -/
theorem c7_timeout_cast (isNumeric : String → Bool) (value : String) (n : Int) :
    (parseIntJs value = some n → n ≤ 0 → jsTrim value ≠ "" →
      castTaskSessionTimeout isNumeric value = CastResult.abort)
    ∧ (jsTrim value = "" →
      castTaskSessionTimeout isNumeric value = CastResult.ok (Cell.str ""))
    ∧ (parseIntJs value = some n → 0 < n → isNumeric value = true → jsTrim value ≠ "" →
      castTaskSessionTimeout isNumeric value = CastResult.ok (Cell.int n)) := by
  refine ⟨?_, ?_, ?_⟩
  · intro hp hn ht
    have hgt : (match parseIntJs value with
        | some n => decide (0 < n)
        | none => false) = false := by
      rw [hp]; simp; omega
    have htb : (jsTrim value == "") = false := by simp [ht]
    simp [castTaskSessionTimeout, hgt, htb]
  · intro ht
    simp [castTaskSessionTimeout, ht]
  · intro hp hn hnum ht
    have hgt : (match parseIntJs value with
        | some n => decide (0 < n)
        | none => false) = true := by
      rw [hp]; simpa using hn
    have htb : (jsTrim value == "") = false := by simp [ht]
    simp [castTaskSessionTimeout, hgt, htb, hnum, hp]
    exact hn

theorem c7_timeout_cast_witness :
    castTaskSessionTimeout isNumericDigits "5" = CastResult.ok (Cell.int 5)
    ∧ castTaskSessionTimeout isNumericDigits " " = CastResult.ok (Cell.str "") :=
  ⟨(c7_timeout_cast isNumericDigits "5" 5).2.2 (by decide) (by decide) (by decide) (by decide),
   (c7_timeout_cast isNumericDigits " " 0).2.1 (by decide)⟩

/-! ## Claim C6 -/

/-- C6 counterexample: with a source whose first physical line is empty, the
first non-empty line holds the header content, but `getHeaders` keeps no
record at all (`info.lines` of the header record is 2, not 1), so the
header row is not taken from the first non-empty line. -/
theorem c6_counterexample :
    firstNonEmptyLine [[], ["Task counter", "Task type"]]
      = some ["Task counter", "Task type"]
    ∧ getHeadersModel [[], ["Task counter", "Task type"]] = [] :=
  ⟨rfl, rfl⟩

/-- C6 amended: `getHeaders` takes the header row from physical line 1
only: when the first line of the file is non-empty it is the (only) header
record, and when the first line is empty — even though a later non-empty
line exists — no header record is produced at all. -/
theorem c6_header_from_line_one (src : List (List String)) :
    getHeadersModel src =
      (match src with
       | [] => []
       | l :: _ => if isEmptyLine l then [] else [l]) := by
  cases src with
  | nil => rfl
  | cons l rest =>
    have hrest : (csvRecordsFrom 2 rest).filter (fun p => p.1 == 1) = [] := by
      rw [List.filter_eq_nil_iff]
      intro p hp
      have h2 := csvRecordsFrom_fst_ge rest 2 p hp
      simp only [beq_iff_eq]
      omega
    cases hb : isEmptyLine l with
    | true =>
      simp only [getHeadersModel, csvRecordsOfSource, csvRecordsFrom, hb, if_pos rfl,
        hrest, List.map_nil, if_true]
    | false =>
      simp only [getHeadersModel, csvRecordsOfSource, csvRecordsFrom, hb,
        Bool.false_eq_true, if_false]
      rw [List.filter_cons_of_pos (by simp)]
      have h12 : csvRecordsFrom (1 + 1) rest = csvRecordsFrom 2 rest := rfl
      rw [h12, hrest]
      rfl

/-! ## Claim C9 -/

/-- C9: the file branch of `parseTree` writes the task tree only when the
output file format is `json`; any other output file format (`excel`,
`csv`) exits with code 1 without writing; with `json` the (cleaned) tree
is written. -/
theorem c9_tree_output_json_only (fmt : String) (fe ow ok : Bool) (t : TaskTreeNodeList) :
    (fmt ≠ "json" → parseTreeFileOutput fmt fe ow ok t = TreeFileOutcome.exitCode 1)
    ∧ (∀ content, parseTreeFileOutput fmt fe ow ok t = TreeFileOutcome.written content →
        fmt = "json")
    ∧ (fmt = "json" → (fe = false ∨ ow = true ∨ ok = true) →
        parseTreeFileOutput fmt fe ow ok t = TreeFileOutcome.written (cleanupTaskTree t)) := by
  refine ⟨?_, ?_, ?_⟩
  · intro h
    simp [parseTreeFileOutput, h]
  · intro content h
    by_contra hne
    simp [parseTreeFileOutput, hne] at h
  · intro h hcase
    subst h
    rcases hcase with h | h | h <;> simp [parseTreeFileOutput, h]

theorem c9_tree_output_json_only_witness :
    parseTreeFileOutput "csv" false false false TaskTreeNodeList.nil
      = TreeFileOutcome.exitCode 1
    ∧ parseTreeFileOutput "json" false false false TaskTreeNodeList.nil
      = TreeFileOutcome.written (cleanupTaskTree TaskTreeNodeList.nil) :=
  ⟨(c9_tree_output_json_only "csv" false false false .nil).1 (by decide),
   (c9_tree_output_json_only "json" false false false .nil).2.2 rfl (Or.inl rfl)⟩

/-! ## Claim C10 -/

mutual
theorem cleanupTaskTree_clean :
    ∀ t : TaskTreeNodeList, nodeListOnlyTextChildren (cleanupTaskTree t) = true
  | .nil => rfl
  | .cons n rest => by
    simp only [cleanupTaskTree, nodeListOnlyTextChildren, Bool.and_eq_true]
    exact ⟨cleanupNode_clean n, cleanupTaskTree_clean rest⟩

theorem cleanupNode_clean :
    ∀ n : TaskTreeNode, nodeOnlyTextChildren (cleanupNode n) = true
  | .mk props => by
    simp only [cleanupNode, nodeOnlyTextChildren]
    exact cleanupProps_clean props

theorem cleanupProps_clean :
    ∀ p : TaskTreePropList, propsOnlyTextChildren (cleanupProps p) = true
  | .nil => rfl
  | .cons k v rest => by
    cases hkt : (k != "text" && k != "children") with
    | true =>
      simp only [cleanupProps, hkt, if_pos rfl]
      exact cleanupProps_clean rest
    | false =>
      have hk2 : (k == "text" || k == "children") = true := by
        cases ha : (k == "text") <;> cases hb : (k == "children") <;>
          simp [bne, ha, hb] at hkt ⊢
      simp only [cleanupProps, hkt, Bool.false_eq_true, if_false,
        propsOnlyTextChildren, Bool.and_eq_true]
      exact ⟨⟨hk2, cleanupVal_clean v⟩, cleanupProps_clean rest⟩

theorem cleanupVal_clean :
    ∀ v : TaskTreeVal, valOnlyTextChildren (cleanupVal v) = true
  | .prim _ => rfl
  | .nodes children => by
    simp only [cleanupVal, valOnlyTextChildren]
    exact cleanupTaskTree_clean children
end

/-- C10: after `cleanupTaskTree` is applied to a task tree, every node at
every depth of the resulting tree carries only the properties `text` and
`children`; all other per-node properties are removed. -/
theorem c10_cleanup_only_text_children (t : TaskTreeNodeList) :
    nodeListOnlyTextChildren (cleanupTaskTree t) = true :=
  cleanupTaskTree_clean t

/-! ## Claim C2 -/

/-- C2: when the Excel source file does not contain the requested task
sheet, `importTaskFromFile` throws before Phase 0/A — no app upload and no
task creation happens — and the run ends with a non-zero exit code. -/
theorem c2_missing_sheet_aborts (o : ImportOptions) (pos : Nat) (sheets : List Sheet)
    (h : ∀ s ∈ sheets, s.name ≠ o.sheetName) :
    (importTaskFromFileExcelRun o pos sheets).events = []
    ∧ exitCodeOfRun (importTaskFromFileExcelRun o pos sheets) ≠ 0 := by
  have hfind : findSheet sheets o.sheetName = none := by
    rw [findSheet, List.find?_eq_none]
    intro s hs
    simp [h s hs]
  simp [importTaskFromFileExcelRun, hfind, exitCodeOfRun]

theorem c2_missing_sheet_aborts_witness :
    (importTaskFromFileExcelRun ⟨"excel", "Tasks", false, "Apps", "0"⟩ 0
      [⟨"Sheet1", []⟩]).events = []
    ∧ exitCodeOfRun (importTaskFromFileExcelRun ⟨"excel", "Tasks", false, "Apps", "0"⟩ 0
      [⟨"Sheet1", []⟩]) ≠ 0 :=
  c2_missing_sheet_aborts ⟨"excel", "Tasks", false, "Apps", "0"⟩ 0 [⟨"Sheet1", []⟩]
    (by decide)

/-! ## Claim C1 -/

/-- C1: with `limitImportCount` parsing to `N > 0`, the CSV retention loop
keeps exactly the header record (`info.lines = 1`) plus the data records
whose `Task counter` cell is `<= N`, and the Excel limit step keeps exactly
the header row (the row whose `Task counter` cell equals the literal column
name) plus the data rows whose `Task counter` cell is `<= N`; with
`limitImportCount = 0` every record and row of the source is retained; with
`N = 1` a data record whose `Task counter` is an integer `>= 1` is retained
iff that counter equals 1, i.e. only rows of the first task survive. -/
theorem c1_limit_import_count (limitStr : String) (N : Int) (pos : Nat)
    (recs : List CsvRecord) (data : List (List Cell)) :
    (parseIntJs limitStr = some N → 0 < N →
      (∀ r ∈ recs,
        (r ∈ processCsvRetain limitStr pos recs ↔
          r.lines = 1 ∨ cellLe (r.record.get? pos) N = true))
      ∧ (∀ row ∈ data,
        (row ∈ excelLimitData limitStr pos data ↔
          row.get? pos = some (Cell.str taskCounterColName)
            ∨ cellLe (row.get? pos) N = true)))
    ∧ (parseIntJs limitStr = some 0 →
        processCsvRetain limitStr pos recs = recs
          ∧ excelLimitData limitStr pos data = data)
    ∧ (parseIntJs limitStr = some 1 →
        ∀ r ∈ recs, ∀ c : Int, r.record.get? pos = some (Cell.int c) → 1 ≤ c →
          (r ∈ processCsvRetain limitStr pos recs ↔ r.lines = 1 ∨ c = 1)) := by
  have hmain : ∀ M : Int, parseIntJs limitStr = some M → 0 < M →
      (∀ r ∈ recs,
        (r ∈ processCsvRetain limitStr pos recs ↔
          r.lines = 1 ∨ cellLe (r.record.get? pos) M = true))
      ∧ (∀ row ∈ data,
        (row ∈ excelLimitData limitStr pos data ↔
          row.get? pos = some (Cell.str taskCounterColName)
            ∨ cellLe (row.get? pos) M = true)) := by
    intro M hparse hM
    have hact : limitActive limitStr = true := by
      rw [limitActive, hparse]
      simpa using hM
    have hgd : (parseIntJs limitStr).getD 0 = M := by rw [hparse]; rfl
    constructor
    · intro r hr
      rw [processCsvRetain, List.mem_filter]
      by_cases h1 : r.lines = 1
      · have hb : (r.lines == 1) = true := by simpa using h1
        simp [hb, h1, hr]
      · have hb : (r.lines == 1) = false := by simpa using h1
        simp [hb, h1, hr, hact, hgd]
    · intro row hrow
      rw [excelLimitData, if_pos (by simpa using hact), List.mem_filter]
      simp [hrow, hgd]
  refine ⟨fun hp hN => hmain N hp hN, ?_, ?_⟩
  · intro hparse
    have hact : limitActive limitStr = false := by
      rw [limitActive, hparse]; simp
    constructor
    · rw [processCsvRetain]
      rw [List.filter_eq_self]
      intro r _
      by_cases h1 : r.lines = 1
      · have hb : (r.lines == 1) = true := by simpa using h1
        simp [hb]
      · have hb : (r.lines == 1) = false := by simpa using h1
        simp [hb, hact]
    · rw [excelLimitData, if_neg (by simp [hact])]
  · intro hparse r hr c hc h1c
    have h := (hmain 1 hparse (by omega)).1 r hr
    rw [h, hc]
    have : cellLe (some (Cell.int c)) 1 = decide (c ≤ 1) := rfl
    rw [this]
    constructor
    · rintro (h1 | h1)
      · exact Or.inl h1
      · right
        have := of_decide_eq_true h1
        omega
    · rintro (h1 | h1)
      · exact Or.inl h1
      · right
        subst h1
        decide

theorem c1_limit_import_count_witness :
    ((⟨1, [Cell.str "Task counter"]⟩ : CsvRecord)
      ∈ processCsvRetain "1" 0
        [⟨1, [Cell.str "Task counter"]⟩, ⟨2, [Cell.int 1]⟩, ⟨3, [Cell.int 2]⟩])
    ∧ ((⟨2, [Cell.int 1]⟩ : CsvRecord)
      ∈ processCsvRetain "1" 0
        [⟨1, [Cell.str "Task counter"]⟩, ⟨2, [Cell.int 1]⟩, ⟨3, [Cell.int 2]⟩])
    ∧ ¬ ((⟨3, [Cell.int 2]⟩ : CsvRecord)
      ∈ processCsvRetain "1" 0
        [⟨1, [Cell.str "Task counter"]⟩, ⟨2, [Cell.int 1]⟩, ⟨3, [Cell.int 2]⟩]) := by
  have h := c1_limit_import_count "1" 1 0
    [⟨1, [Cell.str "Task counter"]⟩, ⟨2, [Cell.int 1]⟩, ⟨3, [Cell.int 2]⟩] []
  refine ⟨?_, ?_, ?_⟩
  · exact ((h.1 (by decide) (by decide)).1 _ (by decide)).mpr (Or.inl rfl)
  · exact ((h.1 (by decide) (by decide)).1 _ (by decide)).mpr (Or.inr (by decide))
  · intro hmem
    have hdis := ((h.2.2 (by decide) ⟨3, [Cell.int 2]⟩ (by decide) 2 rfl (by decide)).mp hmem)
    rcases hdis with h3 | h3
    · exact absurd h3 (by decide)
    · exact absurd h3 (by decide)

/-! ## Claim C3 -/

theorem findIdx?_congr {α : Type} {p q : α → Bool} (h : ∀ a, p a = q a) :
    ∀ (l : List α) (s : Nat), List.findIdx? p l s = List.findIdx? q l s := by
  intro l
  induction l with
  | nil => intro s; rfl
  | cons a as ih =>
    intro s
    rw [List.findIdx?_cons, List.findIdx?_cons, h a]
    cases hq : q a
    · simp [ih]
    · simp

theorem findIdx?_some_get {α : Type} (p : α → Bool) :
    ∀ (l : List α) (s i : Nat), List.findIdx? p l s = some i →
      s ≤ i ∧ ∃ a, l.get? (i - s) = some a ∧ p a = true := by
  intro l
  induction l with
  | nil => intro s i h; simp [List.findIdx?] at h
  | cons a as ih =>
    intro s i h
    rw [List.findIdx?_cons] at h
    cases hpa : p a
    · rw [hpa] at h
      simp only [Bool.false_eq_true, if_false] at h
      obtain ⟨hle, b, hget, hpb⟩ := ih (s + 1) i h
      refine ⟨by omega, b, ?_, hpb⟩
      have harr : i - s = (i - (s + 1)) + 1 := by omega
      rw [harr]
      simpa using hget
    · rw [hpa] at h
      have hsi : s = i := by simpa using h
      subst hsi
      exact ⟨le_refl s, a, by simp, hpa⟩

theorem findIdx?_isSome_of_mem {α : Type} (p : α → Bool) :
    ∀ (l : List α) (s : Nat) (a : α), a ∈ l → p a = true →
      ∃ i, List.findIdx? p l s = some i := by
  intro l
  induction l with
  | nil => intro s a ha; simp at ha
  | cons b bs ih =>
    intro s a ha hp
    rw [List.findIdx?_cons]
    cases hpb : p b
    · simp only [Bool.false_eq_true, if_false]
      rcases List.mem_cons.mp ha with rfl | ha2
      · rw [hp] at hpb; cases hpb
      · exact ih (s + 1) a ha2 hp
    · exact ⟨s, by simp⟩

theorem filterWithIndexFrom_subset (p : Nat → CircularTaskChain → Bool) :
    ∀ (l : List CircularTaskChain) (i : Nat) (c : CircularTaskChain),
      c ∈ filterWithIndexFrom p i l → c ∈ l := by
  intro l
  induction l with
  | nil => intro i c h; simp [filterWithIndexFrom] at h
  | cons a as ih =>
    intro i c h
    simp only [filterWithIndexFrom] at h
    by_cases hp : p i a = true
    · rw [if_pos hp] at h
      rcases List.mem_cons.mp h with rfl | h2
      · exact List.mem_cons_self _ _
      · exact List.mem_cons_of_mem a (ih (i + 1) c h2)
    · rw [if_neg hp] at h
      exact List.mem_cons_of_mem a (ih (i + 1) c h)

theorem exists_idx_of_mem_filterWithIndexFrom (p : Nat → CircularTaskChain → Bool) :
    ∀ (l : List CircularTaskChain) (i : Nat) (c : CircularTaskChain),
      c ∈ filterWithIndexFrom p i l → ∃ j, i ≤ j ∧ p j c = true := by
  intro l
  induction l with
  | nil => intro i c h; simp [filterWithIndexFrom] at h
  | cons a as ih =>
    intro i c h
    simp only [filterWithIndexFrom] at h
    by_cases hp : p i a = true
    · rw [if_pos hp] at h
      rcases List.mem_cons.mp h with rfl | h2
      · exact ⟨i, le_refl i, hp⟩
      · obtain ⟨j, hj, hpj⟩ := ih (i + 1) c h2
        exact ⟨j, by omega, hpj⟩
    · rw [if_neg hp] at h
      obtain ⟨j, hj, hpj⟩ := ih (i + 1) c h
      exact ⟨j, by omega, hpj⟩

theorem mem_filterWithIndexFrom_of_get? (p : Nat → CircularTaskChain → Bool) :
    ∀ (l : List CircularTaskChain) (i k : Nat) (c : CircularTaskChain),
      l.get? k = some c → p (i + k) c = true → c ∈ filterWithIndexFrom p i l := by
  intro l
  induction l with
  | nil => intro i k c h; simp at h
  | cons a as ih =>
    intro i k c hget hp
    cases k with
    | zero =>
      simp only [List.get?] at hget
      injection hget with hget
      subst hget
      rw [Nat.add_zero] at hp
      simp only [filterWithIndexFrom]
      rw [if_pos hp]
      exact List.mem_cons_self _ _
    | succ k2 =>
      simp only [List.get?] at hget
      have harr : i + 1 + k2 = i + (k2 + 1) := by omega
      have hmem := ih (i + 1) k2 c hget (by rw [harr]; exact hp)
      simp only [filterWithIndexFrom]
      by_cases hpa : p i a = true
      · rw [if_pos hpa]
        exact List.mem_cons_of_mem _ hmem
      · rw [if_neg hpa]
        exact hmem

theorem filterWithIndexFrom_map_nodup {f : CircularTaskChain → String × String}
    (p : Nat → CircularTaskChain → Bool)
    (hinj : ∀ i j a b, p i a = true → p j b = true → f a = f b → i = j) :
    ∀ (l : List CircularTaskChain) (i : Nat),
      ((filterWithIndexFrom p i l).map f).Nodup := by
  intro l
  induction l with
  | nil => intro i; simp [filterWithIndexFrom]
  | cons a as ih =>
    intro i
    simp only [filterWithIndexFrom]
    by_cases hpa : p i a = true
    · rw [if_pos hpa]
      simp only [List.map_cons, List.nodup_cons]
      refine ⟨?_, ih (i + 1)⟩
      intro hmem
      rcases List.mem_map.mp hmem with ⟨b, hb, hfb⟩
      obtain ⟨j, hj, hpj⟩ := exists_idx_of_mem_filterWithIndexFrom p as (i + 1) b hb
      have := hinj i j a b hpa hpj hfb.symm
      omega
    · rw [if_neg hpa]
      exact ih (i + 1)

/-- C3 counterexample: when the detected chains contain both orientations of
the same 2-cycle — the same unordered endpoint identity — the
de-duplication keeps both of them, so more than one pair per unordered
endpoint identity is reported. -/
theorem c3_counterexample :
    dedupCircularTaskChains
        [⟨⟨"id-a", "Task A"⟩, ⟨"id-b", "Task B"⟩⟩, ⟨⟨"id-b", "Task B"⟩, ⟨"id-a", "Task A"⟩⟩]
      = [⟨⟨"id-a", "Task A"⟩, ⟨"id-b", "Task B"⟩⟩, ⟨⟨"id-b", "Task B"⟩, ⟨"id-a", "Task A"⟩⟩]
    ∧ sameUnorderedEndpoints ⟨⟨"id-a", "Task A"⟩, ⟨"id-b", "Task B"⟩⟩
        ⟨⟨"id-b", "Task B"⟩, ⟨"id-a", "Task A"⟩⟩ = true
    ∧ "id-a" ≠ "id-b" :=
  ⟨by decide, by decide, by decide⟩

/-- C3 amended: the reported set after de-duplication contains exactly one
chain per ordered endpoint pair `(fromTask.id, toTask.id)` occurring among
the detected chains — duplicates of the same orientation are collapsed,
every detected ordered pair keeps a representative, and nothing else is
reported; chains `(A, B)` and `(B, A)` have different ordered pairs, so
both are reported. -/
theorem c3_dedup_is_by_ordered_pair (chains : List CircularTaskChain) :
    ((dedupCircularTaskChains chains).map orderedKey).Nodup
    ∧ (∀ c ∈ chains, ∃ d ∈ dedupCircularTaskChains chains, orderedKey d = orderedKey c)
    ∧ (∀ d ∈ dedupCircularTaskChains chains, d ∈ chains) := by
  have hrefl : ∀ c : CircularTaskChain, sameOrderedEndpoints c c = true := by
    intro c; simp [sameOrderedEndpoints]
  have hcongr : ∀ a b : CircularTaskChain, orderedKey a = orderedKey b →
      ∀ x, sameOrderedEndpoints a x = sameOrderedEndpoints b x := by
    intro a b hab x
    have h1 : a.fromTask.id = b.fromTask.id := congrArg Prod.fst hab
    have h2 : a.toTask.id = b.toTask.id := congrArg Prod.snd hab
    simp [sameOrderedEndpoints, h1, h2]
  refine ⟨?_, ?_, ?_⟩
  · apply filterWithIndexFrom_map_nodup
      (fun index chain => chains.findIdx? (sameOrderedEndpoints chain) == some index)
    intro i j a b hia hjb hkeys
    have hia2 : chains.findIdx? (sameOrderedEndpoints a) = some i := by
      simpa using hia
    have hjb2 : chains.findIdx? (sameOrderedEndpoints b) = some j := by
      simpa using hjb
    have heq := findIdx?_congr (hcongr a b hkeys) chains 0
    rw [hia2, hjb2] at heq
    injection heq
  · intro c hc
    obtain ⟨i0, hfind⟩ :=
      findIdx?_isSome_of_mem (sameOrderedEndpoints c) chains 0 c hc (hrefl c)
    obtain ⟨-, d, hget, hpd⟩ := findIdx?_some_get (sameOrderedEndpoints c) chains 0 i0 hfind
    rw [Nat.sub_zero] at hget
    have hkey : orderedKey d = orderedKey c := by
      rw [sameOrderedEndpoints, Bool.and_eq_true] at hpd
      obtain ⟨hf, ht⟩ := hpd
      rw [orderedKey, orderedKey]
      rw [beq_iff_eq] at hf ht
      rw [hf, ht]
    refine ⟨d, ?_, hkey⟩
    apply mem_filterWithIndexFrom_of_get?
      (fun index chain => chains.findIdx? (sameOrderedEndpoints chain) == some index)
      chains 0 i0 d hget
    have heq := findIdx?_congr (hcongr d c hkey) chains 0
    rw [hfind] at heq
    simp [heq]
  · intro d hd
    exact filterWithIndexFrom_subset _ chains 0 d hd

theorem c3_dedup_is_by_ordered_pair_witness :
    ∃ d ∈ dedupCircularTaskChains
        [⟨⟨"id-a", "Task A"⟩, ⟨"id-b", "Task B"⟩⟩,
         ⟨⟨"id-a", "Task A"⟩, ⟨"id-b", "Task B"⟩⟩],
      orderedKey d = orderedKey ⟨⟨"id-a", "Task A"⟩, ⟨"id-b", "Task B"⟩⟩ :=
  (c3_dedup_is_by_ordered_pair
    [⟨⟨"id-a", "Task A"⟩, ⟨"id-b", "Task B"⟩⟩,
     ⟨⟨"id-a", "Task A"⟩, ⟨"id-b", "Task B"⟩⟩]).2.1 _ (by decide)

/-! ## Claim C8 -/

theorem mem_appUploadEvents (data : List (List Cell)) (e : ImportEvent)
    (he : e ∈ appUploadEvents data) : ∃ r, e = ImportEvent.appUpload r := by
  rcases List.mem_map.mp he with ⟨k, -, rfl⟩
  exact ⟨k, rfl⟩

theorem mem_taskCreateEvents (pos : Nat) (data : List (List Cell)) (e : ImportEvent)
    (he : e ∈ taskCreateEvents pos data) : ∃ g, e = ImportEvent.taskCreate g := by
  unfold taskCreateEvents at he
  cases data with
  | nil => simp at he
  | cons hdr rows =>
    rcases List.mem_map.mp he with ⟨k, -, rfl⟩
    exact ⟨k, rfl⟩

/-- C8: with the import-app option enabled, every app upload of the run
precedes every task creation in the run's event order — the upload phase
runs to completion before the creation of any task begins. -/
theorem c8_app_uploads_before_task_creation (o : ImportOptions) (pos : Nat)
    (sheets : List Sheet) (happ : o.importApp = true) (i j a g : Nat)
    (hi : (importTaskFromFileExcelRun o pos sheets).events.get? i
        = some (ImportEvent.appUpload a))
    (hj : (importTaskFromFileExcelRun o pos sheets).events.get? j
        = some (ImportEvent.taskCreate g)) :
    i < j := by
  cases hts : findSheet sheets o.sheetName with
  | none =>
    simp only [importTaskFromFileExcelRun, hts] at hi
    simp at hi
  | some taskSheet =>
    cases has2 : findSheet sheets o.importAppSheetName with
    | none =>
      simp only [importTaskFromFileExcelRun, hts, happ, if_true, has2] at hi
      simp at hi
    | some appSheet =>
      simp only [importTaskFromFileExcelRun, hts, happ, if_true, has2] at hi hj
      have hiU : i < (appUploadEvents appSheet.data).length := by
        by_contra hge
        push_neg at hge
        rw [List.get?_append_right hge] at hi
        obtain ⟨g2, hg2⟩ := mem_taskCreateEvents _ _ _ (List.get?_mem hi)
        simp at hg2
      have hjU : (appUploadEvents appSheet.data).length ≤ j := by
        by_contra hlt
        push_neg at hlt
        rw [List.get?_append hlt] at hj
        obtain ⟨r2, hr2⟩ := mem_appUploadEvents _ _ (List.get?_mem hj)
        simp at hr2
      omega

theorem c8_app_uploads_before_task_creation_witness :
    ((importTaskFromFileExcelRun ⟨"excel", "Tasks", true, "Apps", "0"⟩ 0
        [⟨"Tasks", [[Cell.str "Task counter"], [Cell.int 1]]⟩,
         ⟨"Apps", [[Cell.str "App counter"], [Cell.int 1]]⟩]).events
      = [ImportEvent.appUpload 0, ImportEvent.taskCreate 0])
    ∧ 0 < 1 := by
  have hl : limitActive "0" = false := by decide
  have hev : (importTaskFromFileExcelRun ⟨"excel", "Tasks", true, "Apps", "0"⟩ 0
      [⟨"Tasks", [[Cell.str "Task counter"], [Cell.int 1]]⟩,
       ⟨"Apps", [[Cell.str "App counter"], [Cell.int 1]]⟩]).events
      = [ImportEvent.appUpload 0, ImportEvent.taskCreate 0] := by
    simp [importTaskFromFileExcelRun, findSheet, excelLimitData, hl, appUploadEvents,
      taskCreateEvents, groupRows_cons, groupRows_nil, List.range_succ]
  refine ⟨hev, ?_⟩
  exact c8_app_uploads_before_task_creation ⟨"excel", "Tasks", true, "Apps", "0"⟩ 0
    [⟨"Tasks", [[Cell.str "Task counter"], [Cell.int 1]]⟩,
     ⟨"Apps", [[Cell.str "App counter"], [Cell.int 1]]⟩] rfl 0 1 0 0
    (by rw [hev]; rfl) (by rw [hev]; rfl)

/-! ## Claim C4 -/

theorem takeWhile_append_all {α : Type} (p : α → Bool) :
    ∀ (xs ys : List α), (∀ x ∈ xs, p x = true) →
      (xs ++ ys).takeWhile p = xs ++ ys.takeWhile p := by
  intro xs
  induction xs with
  | nil => intro ys h; simp
  | cons x xs ih =>
    intro ys h
    rw [List.cons_append, List.takeWhile_cons_of_pos (h x (List.mem_cons_self _ _)),
      ih ys (fun a ha => h a (List.mem_cons_of_mem _ ha))]
    rfl

theorem dropWhile_append_all {α : Type} (p : α → Bool) :
    ∀ (xs ys : List α), (∀ x ∈ xs, p x = true) →
      (xs ++ ys).dropWhile p = ys.dropWhile p := by
  intro xs
  induction xs with
  | nil => intro ys h; simp
  | cons x xs ih =>
    intro ys h
    rw [List.cons_append, List.dropWhile_cons_of_pos (h x (List.mem_cons_self _ _)),
      ih ys (fun a ha => h a (List.mem_cons_of_mem _ ha))]

theorem exportRuleRows_mem_keys (c ec : Int) :
    ∀ (rs : List ModelCompositeRule) (rc : Int) (row : List Cell),
      row ∈ exportRuleRows c ec rc rs →
      row.get? 0 = some (Cell.int c) ∧ row.get? 19 = some (Cell.int ec)
        ∧ ∃ rc2 r, row = exportCompositeRuleRow c ec rc2 r := by
  intro rs
  induction rs with
  | nil => intro rc row h; simp [exportRuleRows] at h
  | cons r rs ih =>
    intro rc row h
    rw [exportRuleRows] at h
    rcases List.mem_cons.mp h with rfl | h2
    · exact ⟨rfl, rfl, rc, r, rfl⟩
    · exact ih (rc + 1) row h2

theorem exportRuleRows_key19 (c ec : Int) (rs : List ModelCompositeRule) (rc : Int) :
    ∀ row ∈ exportRuleRows c ec rc rs,
      (fun r2 => r2.get? 19 == some (Cell.int ec)) row = true := by
  intro row h
  simpa using (exportRuleRows_mem_keys c ec rs rc row h).2.1

theorem intCell_beq_false (x y : Int) (h : x ≠ y) :
    ((some (Cell.int x) : Option Cell) == some (Cell.int y)) = false := by
  simp [h]

theorem groupRows_compositeBlocks (c : Int) :
    ∀ (ces : List ModelCompositeEvent) (ec : Int),
      groupRows (fun r => r.get? 19) (compositeEventBlocks c ec ces).flatten
        = compositeEventBlocks c ec ces := by
  intro ces
  induction ces with
  | nil => intro ec; simp [compositeEventBlocks, groupRows_nil]
  | cons e rest ih =>
    intro ec
    rw [compositeEventBlocks, List.flatten_cons, List.cons_append, groupRows_cons]
    have hrules : ∀ x ∈ exportRuleRows c ec 1 e.rules,
        (fun r2 => r2.get? 19 == (exportCompositeEventRow c ec e).get? 19) x = true := by
      intro x hx
      exact exportRuleRows_key19 c ec e.rules 1 x hx
    rw [takeWhile_append_all _ _ _ hrules, dropWhile_append_all _ _ _ hrules]
    cases rest with
    | nil =>
      simp [compositeEventBlocks, groupRows_nil]
    | cons e2 rest2 =>
      have hhead : ((exportCompositeEventRow c (ec + 1) e2).get? 19
          == (exportCompositeEventRow c ec e).get? 19) = false := by
        show ((some (Cell.int (ec + 1)) : Option Cell) == some (Cell.int ec)) = false
        exact intCell_beq_false _ _ (by omega)
      have hflat2 : (compositeEventBlocks c (ec + 1) (e2 :: rest2)).flatten
          = exportCompositeEventRow c (ec + 1) e2
            :: (exportRuleRows c (ec + 1) 1 e2.rules
              ++ (compositeEventBlocks c (ec + 1 + 1) rest2).flatten) := by
        rw [compositeEventBlocks, List.flatten_cons, List.cons_append]
      rw [hflat2, List.takeWhile_cons_of_neg (by simpa using hhead),
        List.dropWhile_cons_of_neg (by simpa using hhead), ← hflat2, ih (ec + 1)]
      simp

theorem groupRows_eventBlocks (c : Int) :
    ∀ (ses : List ModelSchemaEvent) (ces : List ModelCompositeEvent) (ec : Int),
      groupRows (fun r => r.get? 19)
          ((schemaEventBlocks c ec ses
            ++ compositeEventBlocks c (ec + (ses.length : Int)) ces).flatten)
        = schemaEventBlocks c ec ses
            ++ compositeEventBlocks c (ec + (ses.length : Int)) ces := by
  intro ses
  induction ses with
  | nil =>
    intro ces ec
    simp only [schemaEventBlocks, List.nil_append, List.length_nil, Nat.cast_zero,
      Int.add_zero]
    exact groupRows_compositeBlocks c ces ec
  | cons e rest ih =>
    intro ces ec
    have harith : ec + ((e :: rest).length : Int) = ec + 1 + (rest.length : Int) := by
      push_cast [List.length_cons]
      omega
    rw [harith, schemaEventBlocks, List.cons_append, List.flatten_cons,
      List.singleton_append, groupRows_cons]
    cases rest with
    | cons e2 rest2 =>
      have hflat2 : ((schemaEventBlocks c (ec + 1) (e2 :: rest2)
            ++ compositeEventBlocks c (ec + 1 + (((e2 :: rest2).length : Nat) : Int)) ces).flatten)
          = exportSchemaEventRow c (ec + 1) e2
            :: ((schemaEventBlocks c (ec + 1 + 1) rest2
              ++ compositeEventBlocks c (ec + 1 + (((e2 :: rest2).length : Nat) : Int)) ces).flatten) := by
        rw [schemaEventBlocks, List.cons_append, List.flatten_cons, List.singleton_append]
      have hhead : ((exportSchemaEventRow c (ec + 1) e2).get? 19
          == (exportSchemaEventRow c ec e).get? 19) = false := by
        show ((some (Cell.int (ec + 1)) : Option Cell) == some (Cell.int ec)) = false
        exact intCell_beq_false _ _ (by omega)
      rw [hflat2, List.takeWhile_cons_of_neg (by simpa using hhead),
        List.dropWhile_cons_of_neg (by simpa using hhead), ← hflat2]
      have harith2 : ec + 1 + (((e2 :: rest2).length : Nat) : Int)
          = ec + 1 + ((e2 :: rest2).length : Int) := rfl
      rw [harith2, ih ces (ec + 1)]
    | nil =>
      simp only [List.length_nil, Nat.cast_zero, Int.add_zero, schemaEventBlocks,
        List.nil_append]
      cases ces with
      | nil =>
        simp [compositeEventBlocks, groupRows_nil]
      | cons e2 ces2 =>
        have hflat2 : (compositeEventBlocks c (ec + 1) (e2 :: ces2)).flatten
            = exportCompositeEventRow c (ec + 1) e2
              :: (exportRuleRows c (ec + 1) 1 e2.rules
                ++ (compositeEventBlocks c (ec + 1 + 1) ces2).flatten) := by
          rw [compositeEventBlocks, List.flatten_cons, List.cons_append]
        have hhead : ((exportCompositeEventRow c (ec + 1) e2).get? 19
            == (exportSchemaEventRow c ec e).get? 19) = false := by
          show ((some (Cell.int (ec + 1)) : Option Cell) == some (Cell.int ec)) = false
          exact intCell_beq_false _ _ (by omega)
        rw [hflat2, List.takeWhile_cons_of_neg (by simpa using hhead),
          List.dropWhile_cons_of_neg (by simpa using hhead), ← hflat2,
          groupRows_compositeBlocks c (e2 :: ces2) (ec + 1)]

theorem schemaEventBlocks_get0 (c : Int) :
    ∀ (es : List ModelSchemaEvent) (ec : Int) (b : List (List Cell)),
      b ∈ schemaEventBlocks c ec es → ∀ r ∈ b, r.get? 0 = some (Cell.int c) := by
  intro es
  induction es with
  | nil => intro ec b hb; simp [schemaEventBlocks] at hb
  | cons e rest ih =>
    intro ec b hb r hr
    rw [schemaEventBlocks] at hb
    rcases List.mem_cons.mp hb with rfl | hb2
    · rcases List.mem_singleton.mp hr with rfl
      rfl
    · exact ih (ec + 1) b hb2 r hr

theorem compositeEventBlocks_get0 (c : Int) :
    ∀ (ces : List ModelCompositeEvent) (ec : Int) (b : List (List Cell)),
      b ∈ compositeEventBlocks c ec ces → ∀ r ∈ b, r.get? 0 = some (Cell.int c) := by
  intro ces
  induction ces with
  | nil => intro ec b hb; simp [compositeEventBlocks] at hb
  | cons e rest ih =>
    intro ec b hb r hr
    rw [compositeEventBlocks] at hb
    rcases List.mem_cons.mp hb with rfl | hb2
    · rcases List.mem_cons.mp hr with rfl | hr2
      · rfl
      · exact (exportRuleRows_mem_keys c ec e.rules 1 r hr2).1
    · exact ih (ec + 1) b hb2 r hr

theorem groupRows_taskBlocks (m : TaskModel) :
    ∀ (ts : List ModelTask) (c : Int),
      groupRows (fun r => r.get? 0) (taskBlocks m c ts).flatten = taskBlocks m c ts := by
  intro ts
  induction ts with
  | nil => intro c; simp [taskBlocks, groupRows_nil]
  | cons t rest ih =>
    intro c
    rw [taskBlocks, List.flatten_cons, exportRowsForTask, List.cons_append, groupRows_cons]
    have htail : ∀ x ∈ (schemaEventBlocks c 1 (schemaEventsForTask m t)
          ++ compositeEventBlocks c (1 + ((schemaEventsForTask m t).length : Int))
              (compositeEventsForTask m t)).flatten,
        (fun r2 => r2.get? 0 == (exportTaskRow c t).get? 0) x = true := by
      intro x hx
      have hx0 : x.get? 0 = some (Cell.int c) := by
        rcases List.mem_flatten.mp hx with ⟨b, hb, hxb⟩
        rcases List.mem_append.mp hb with hbs | hbc
        · exact schemaEventBlocks_get0 c _ _ b hbs x hxb
        · exact compositeEventBlocks_get0 c _ _ b hbc x hxb
      show (x.get? 0 == some (Cell.int c)) = true
      simpa using hx0
    rw [takeWhile_append_all _ _ _ htail, dropWhile_append_all _ _ _ htail]
    cases rest with
    | nil =>
      simp [taskBlocks, groupRows_nil, exportRowsForTask]
    | cons t2 rest2 =>
      have hflat2 : (taskBlocks m (c + 1) (t2 :: rest2)).flatten
          = exportTaskRow (c + 1) t2
            :: ((schemaEventBlocks (c + 1) 1 (schemaEventsForTask m t2)
                ++ compositeEventBlocks (c + 1)
                    (1 + ((schemaEventsForTask m t2).length : Int))
                    (compositeEventsForTask m t2)).flatten
              ++ (taskBlocks m (c + 1 + 1) rest2).flatten) := by
        rw [taskBlocks, List.flatten_cons, exportRowsForTask, List.cons_append]
      have hhead : ((exportTaskRow (c + 1) t2).get? 0
          == (exportTaskRow c t).get? 0) = false := by
        show ((some (Cell.int (c + 1)) : Option Cell) == some (Cell.int c)) = false
        exact intCell_beq_false _ _ (by omega)
      rw [hflat2, List.takeWhile_cons_of_neg (by simpa using hhead),
        List.dropWhile_cons_of_neg (by simpa using hhead), ← hflat2, ih (c + 1)]
      simp [exportRowsForTask]

theorem cellGetBool01_if (b : Bool) :
    cellGetBool01 (some (if b then Cell.bool true else Cell.str "")) = b := by
  cases b <;> rfl

theorem parseSchemaGroup_schemaRow (c ec : Int) (e : ModelSchemaEvent) :
    parseSchemaGroup exportTableCols [exportSchemaEventRow c ec e]
      = some (expectedSchemaTrigger e) := rfl

theorem parseSchemaGroup_compositeBlock (c ec : Int) (e : ModelCompositeEvent) :
    parseSchemaGroup exportTableCols
        (exportCompositeEventRow c ec e :: exportRuleRows c ec 1 e.rules) = none := rfl

theorem parseCompositeGroup_schemaRow (c ec : Int) (e : ModelSchemaEvent) :
    parseCompositeGroup exportTableCols [exportSchemaEventRow c ec e] = none := rfl

theorem filter_exportRuleRows (c ec : Int) :
    ∀ (rs : List ModelCompositeRule) (rc : Int),
      (exportRuleRows c ec rc rs).filter
          (fun r => cellIsInt (r.get? exportTableCols.ruleCounter))
        = exportRuleRows c ec rc rs := by
  intro rs
  induction rs with
  | nil => intro rc; rfl
  | cons r rs ih =>
    intro rc
    rw [exportRuleRows, List.filter_cons_of_pos (by rfl), ih (rc + 1)]

theorem map_parseRuleRow_exportRuleRows (c ec : Int) :
    ∀ (rs : List ModelCompositeRule) (rc : Int),
      (exportRuleRows c ec rc rs).map (parseRuleRow exportTableCols)
        = rs.map expectedRule := by
  intro rs
  induction rs with
  | nil => intro rc; rfl
  | cons r rs ih =>
    intro rc
    rw [exportRuleRows, List.map_cons, ih (rc + 1), List.map_cons]
    rfl

theorem parseCompositeGroup_compositeBlock (c ec : Int) (e : ModelCompositeEvent) :
    parseCompositeGroup exportTableCols
        (exportCompositeEventRow c ec e :: exportRuleRows c ec 1 e.rules)
      = some (expectedCompositeTrigger e) := by
  rw [parseCompositeGroup]
  rw [if_pos (by rfl)]
  rw [List.filter_cons_of_neg (fun hcontra => Bool.noConfusion hcontra)]
  rw [filter_exportRuleRows c ec e.rules 1, map_parseRuleRow_exportRuleRows c ec e.rules 1]
  rfl

theorem filterMap_parseSchemaGroup_schemaBlocks (c : Int) :
    ∀ (es : List ModelSchemaEvent) (ec : Int),
      (schemaEventBlocks c ec es).filterMap (parseSchemaGroup exportTableCols)
        = es.map expectedSchemaTrigger := by
  intro es
  induction es with
  | nil => intro ec; rfl
  | cons e rest ih =>
    intro ec
    rw [schemaEventBlocks, List.filterMap_cons, parseSchemaGroup_schemaRow, ih (ec + 1),
      List.map_cons]

theorem filterMap_parseSchemaGroup_compositeBlocks (c : Int) :
    ∀ (ces : List ModelCompositeEvent) (ec : Int),
      (compositeEventBlocks c ec ces).filterMap (parseSchemaGroup exportTableCols) = [] := by
  intro ces
  induction ces with
  | nil => intro ec; rfl
  | cons e rest ih =>
    intro ec
    rw [compositeEventBlocks, List.filterMap_cons, parseSchemaGroup_compositeBlock,
      ih (ec + 1)]

theorem filterMap_parseCompositeGroup_schemaBlocks (c : Int) :
    ∀ (es : List ModelSchemaEvent) (ec : Int),
      (schemaEventBlocks c ec es).filterMap (parseCompositeGroup exportTableCols) = [] := by
  intro es
  induction es with
  | nil => intro ec; rfl
  | cons e rest ih =>
    intro ec
    rw [schemaEventBlocks, List.filterMap_cons, parseCompositeGroup_schemaRow, ih (ec + 1)]

theorem filterMap_parseCompositeGroup_compositeBlocks (c : Int) :
    ∀ (ces : List ModelCompositeEvent) (ec : Int),
      (compositeEventBlocks c ec ces).filterMap (parseCompositeGroup exportTableCols)
        = ces.map expectedCompositeTrigger := by
  intro ces
  induction ces with
  | nil => intro ec; rfl
  | cons e rest ih =>
    intro ec
    rw [compositeEventBlocks, List.filterMap_cons, parseCompositeGroup_compositeBlock,
      ih (ec + 1), List.map_cons]

theorem parseTaskGroup_exportRows (m : TaskModel) (c : Int) (t : ModelTask) :
    parseTaskGroup exportTableCols (exportRowsForTask m c t) = expectedParsedTask m t := by
  rw [exportRowsForTask]
  rw [parseTaskGroup]
  rw [show (fun (r : List Cell) => r.get? exportTableCols.eventCounter)
      = (fun (r : List Cell) => r.get? 19) from rfl]
  rw [groupRows_eventBlocks c (schemaEventsForTask m t) (compositeEventsForTask m t) 1]
  rw [List.filterMap_append, List.filterMap_append,
    filterMap_parseSchemaGroup_schemaBlocks, filterMap_parseSchemaGroup_compositeBlocks,
    filterMap_parseCompositeGroup_schemaBlocks,
    filterMap_parseCompositeGroup_compositeBlocks, List.append_nil, List.nil_append]
  have h8 : cellGetBool01 ((exportTaskRow c t).get? exportTableCols.partialReload)
      = t.isPartialReload := cellGetBool01_if t.isPartialReload
  have h9 : cellGetBool01 ((exportTaskRow c t).get? exportTableCols.manuallyTriggered)
      = t.isManuallyTriggered := cellGetBool01_if t.isManuallyTriggered
  rw [h8, h9]
  rfl

theorem map_parseTaskGroup_taskBlocks (m : TaskModel) :
    ∀ (ts : List ModelTask) (c : Int),
      (taskBlocks m c ts).map (parseTaskGroup exportTableCols)
        = ts.map (expectedParsedTask m) := by
  intro ts
  induction ts with
  | nil => intro c; rfl
  | cons t rest ih =>
    intro c
    rw [taskBlocks, List.map_cons, parseTaskGroup_exportRows, ih (c + 1), List.map_cons]

theorem parseImportTable_resolved (header : List Cell) (rows : List (List Cell))
    (cols : TaskColPositions) (h : resolveTaskCols header = some cols) :
    parseImportTable (header :: rows)
      = some ((groupRows (fun r => r.get? cols.taskCounter) rows).map (parseTaskGroup cols)) := by
  rw [parseImportTable, h]

/-- C4: re-importing the exporter's output through the (spec-modelled)
parser recovers the exported task population exactly: the parser's
column lookup accepts the exporter's header row (`parseImportTable` returns
`some …` rather than failing), and the recovered task records — task names,
task fields, schema-trigger definitions, and composite-rule lists whose
upstream references are the `Task id` column values — are exactly the
per-task projections of the exported model, as a multiset over the model's
tasks (the exporter's sort is a permutation). -/
theorem c4_export_import_round_trip (m : TaskModel) :
    parseImportTable (exportTable m)
      = some ((sortTasks m.tasks).map (expectedParsedTask m))
    ∧ (((sortTasks m.tasks).map (expectedParsedTask m) : List ParsedTask) : Multiset ParsedTask)
      = ((m.tasks.map (expectedParsedTask m) : List ParsedTask) : Multiset ParsedTask) := by
  constructor
  · have hresolve : resolveTaskCols exportHeaderRow = some exportTableCols := by rfl
    rw [exportTable, parseImportTable_resolved exportHeaderRow _ exportTableCols hresolve]
    rw [show (fun (r : List Cell) => r.get? exportTableCols.taskCounter)
        = (fun (r : List Cell) => r.get? 0) from rfl]
    rw [groupRows_taskBlocks m (sortTasks m.tasks) 1,
      map_parseTaskGroup_taskBlocks m (sortTasks m.tasks) 1]
  · rw [Multiset.coe_eq_coe]
    exact List.Perm.map _ (List.mergeSort_perm m.tasks _)

end CtrlQ
